import Mathlib

/-!
Shallow embedding of the Scheduling & Preemption Engine of the
healthcare-triage-ai-agent repository, together with proofs of the
frozen specification claims.

The embedding follows the Python sources:
 * `triage_agent/models.py`    — urgency levels, ranks, routing actions,
   triage results, routing decisions, appointment results;
 * `triage_agent/policy.py`    — `RoutingPolicy.decide`;
 * `triage_agent/llm_reasoner.py` — `HybridTriageReasoner.analyze`;
 * `triage_agent/database.py`  — the SQLite repository operations that the
   scheduler uses (slot search, preemptable-appointment search,
   `create_appointment`, `move_appointment_to_slot`, `list_queue`);
 * `triage_agent/scheduler.py` — `Scheduler.book`.

Modelling conventions:
 * SQL timestamp strings of the fixed format `%Y-%m-%d %H:%M:%S` compare
   lexicographically exactly as chronologically, so times are modelled as
   natural numbers (minutes); `now + timedelta(minutes=w)` becomes `now + w`.
 * Python `float` configuration thresholds and confidences are modelled
   as rationals.
 * A SQLite database state is a record of lists of rows.  The `id` columns
   are `INTEGER PRIMARY KEY AUTOINCREMENT`, so a schema-conforming state has
   pairwise-distinct ids and every id below the autoincrement counter; these
   schema facts appear as the `WellFormed` predicate where a proof needs them.
 * A raised Python exception inside the scheduler's transaction rolls the
   transaction back (`with conn` + `BEGIN IMMEDIATE`), so fallible
   operations return `Except`: an `Except.error` result carries no state,
   meaning the pre-state survives unchanged.
-/

namespace Triage

/-- Urgency levels, `models.py` (`class Urgency`). -/
inductive Urgency where
  | EMERGENCY
  | URGENT
  | SOON
  | ROUTINE
deriving DecidableEq, Repr

/-- `URGENCY_RANK` / `urgency_rank` from `models.py`. -/
def urgency_rank : Urgency → Nat
  | Urgency.ROUTINE => 1
  | Urgency.SOON => 2
  | Urgency.URGENT => 3
  | Urgency.EMERGENCY => 4

/-- The `.value` string of an urgency member. -/
def urgencyStr : Urgency → String
  | Urgency.EMERGENCY => "EMERGENCY"
  | Urgency.URGENT => "URGENT"
  | Urgency.SOON => "SOON"
  | Urgency.ROUTINE => "ROUTINE"

/-- Routing actions, `models.py` (`class RoutingAction`). -/
inductive RoutingAction where
  | AUTO_BOOK
  | QUEUE_REVIEW
  | ESCALATE
deriving DecidableEq, Repr

/-- `DepartmentScore` from `models.py`. -/
structure DepartmentScore where
  department : String
  score : ℚ
deriving DecidableEq, Repr

/-- `TriageResult` from `models.py` (the fields the core consumes). -/
structure TriageResult where
  redacted_symptoms : String
  urgency : Urgency
  confidence : ℚ
  red_flags : List String
  department_candidates : List DepartmentScore
  suggested_department : String
  rationale : String
  recommended_timeframe_minutes : Nat
  human_routing_flag : Bool
deriving DecidableEq, Repr

/-- `TriageResult.top_department_score` property from `models.py`:
score of the first department candidate, `0.0` when the list is empty. -/
def TriageResult.top_department_score (t : TriageResult) : ℚ :=
  match t.department_candidates with
  | [] => 0
  | c :: _ => c.score

/-- `RoutingDecision` from `models.py`. -/
structure RoutingDecision where
  action : RoutingAction
  reason : String
  confidence_threshold : ℚ
  department_threshold : ℚ
deriving DecidableEq, Repr

/-- `RoutingPolicy.decide` from `policy.py`, with the four configuration
values already resolved (the Python method resolves each `None` argument
to the corresponding `TriageConfig` field before any rule runs). -/
def RoutingPolicy.decide (tc : TriageResult)
    (confidence_threshold department_threshold : ℚ)
    (always_route_when_model_requests_human auto_book_high_urgency : Bool) :
    RoutingDecision :=
  if tc.urgency = Urgency.EMERGENCY ∧ auto_book_high_urgency = false then
    { action := RoutingAction.ESCALATE
      reason := "Emergency cases are configured for mandatory human escalation."
      confidence_threshold := confidence_threshold
      department_threshold := department_threshold }
  else if always_route_when_model_requests_human = true ∧ tc.human_routing_flag = true then
    { action := if tc.urgency = Urgency.EMERGENCY then RoutingAction.ESCALATE
                else RoutingAction.QUEUE_REVIEW
      reason := "Model requested human routing."
      confidence_threshold := confidence_threshold
      department_threshold := department_threshold }
  else if tc.confidence < confidence_threshold then
    { action := if tc.urgency = Urgency.EMERGENCY then RoutingAction.ESCALATE
                else RoutingAction.QUEUE_REVIEW
      reason := "Confidence below policy threshold."
      confidence_threshold := confidence_threshold
      department_threshold := department_threshold }
  else if tc.top_department_score < department_threshold then
    { action := RoutingAction.QUEUE_REVIEW
      reason := "Department certainty below policy threshold."
      confidence_threshold := confidence_threshold
      department_threshold := department_threshold }
  else
    { action := RoutingAction.AUTO_BOOK
      reason := "All routing policy thresholds satisfied."
      confidence_threshold := confidence_threshold
      department_threshold := department_threshold }

/-- `HybridTriageReasoner.analyze` from `llm_reasoner.py`.  The primary and
fallback reasoners are modelled as functions of `(age, sex, symptoms)`
returning `Except`: `Except.error` is a raised Python exception.  When the
primary raises, the fallback result is returned with `human_routing_flag`
forced, confidence capped at `0.79` and a fallback note appended to the
rationale; an exception raised by the fallback itself is not caught. -/
def HybridTriageReasoner.analyze
    (primary fallback : Nat → String → String → Except String TriageResult)
    (age : Nat) (sex symptoms : String) : Except String TriageResult :=
  match primary age sex symptoms with
  | Except.ok r => Except.ok r
  | Except.error _ =>
    match fallback age sex symptoms with
    | Except.error e => Except.error e
    | Except.ok fr =>
      Except.ok { fr with
        human_routing_flag := true
        confidence := min fr.confidence (79 / 100)
        rationale := fr.rationale ++
          " Fallback reasoner used because LLM structured output failed." }

/-- A triage result used to instantiate the policy claims concretely. -/
def sampleCase (u : Urgency) (conf : ℚ) : TriageResult :=
  { redacted_symptoms := "cough"
    urgency := u
    confidence := conf
    red_flags := []
    department_candidates := [{ department := "General Medicine", score := 9 / 10 }]
    suggested_department := "General Medicine"
    rationale := "sample"
    recommended_timeframe_minutes := 60
    human_routing_flag := false }

/-- **C8** — Routing policy order.  `RoutingPolicy.decide` evaluates its five
rules in strict order with first match winning: (1) EMERGENCY with
auto-book-high-urgency disabled escalates; (2) with always-route enabled and
`human_routing_flag` set, EMERGENCY escalates and anything else queues;
(3) confidence strictly below the confidence threshold escalates for
EMERGENCY and queues otherwise; (4) top department score strictly below the
department threshold queues; (5) otherwise AUTO_BOOK.  In particular
confidence `0.60` against threshold `0.80` queues a SOON case and escalates
an EMERGENCY case. -/
theorem routing_policy_order (tc : TriageResult) (ct dt : ℚ) (ar ab : Bool) :
    (tc.urgency = Urgency.EMERGENCY → ab = false →
      (RoutingPolicy.decide tc ct dt ar ab).action = RoutingAction.ESCALATE ∧
      (RoutingPolicy.decide tc ct dt ar ab).reason =
        "Emergency cases are configured for mandatory human escalation.") ∧
    (¬(tc.urgency = Urgency.EMERGENCY ∧ ab = false) →
      ar = true → tc.human_routing_flag = true →
      (RoutingPolicy.decide tc ct dt ar ab).action =
        (if tc.urgency = Urgency.EMERGENCY then RoutingAction.ESCALATE
         else RoutingAction.QUEUE_REVIEW) ∧
      (RoutingPolicy.decide tc ct dt ar ab).reason = "Model requested human routing.") ∧
    (¬(tc.urgency = Urgency.EMERGENCY ∧ ab = false) →
      ¬(ar = true ∧ tc.human_routing_flag = true) →
      tc.confidence < ct →
      (RoutingPolicy.decide tc ct dt ar ab).action =
        (if tc.urgency = Urgency.EMERGENCY then RoutingAction.ESCALATE
         else RoutingAction.QUEUE_REVIEW) ∧
      (RoutingPolicy.decide tc ct dt ar ab).reason = "Confidence below policy threshold.") ∧
    (¬(tc.urgency = Urgency.EMERGENCY ∧ ab = false) →
      ¬(ar = true ∧ tc.human_routing_flag = true) →
      ¬(tc.confidence < ct) →
      tc.top_department_score < dt →
      (RoutingPolicy.decide tc ct dt ar ab).action = RoutingAction.QUEUE_REVIEW ∧
      (RoutingPolicy.decide tc ct dt ar ab).reason =
        "Department certainty below policy threshold.") ∧
    (¬(tc.urgency = Urgency.EMERGENCY ∧ ab = false) →
      ¬(ar = true ∧ tc.human_routing_flag = true) →
      ¬(tc.confidence < ct) →
      ¬(tc.top_department_score < dt) →
      (RoutingPolicy.decide tc ct dt ar ab).action = RoutingAction.AUTO_BOOK) ∧
    (RoutingPolicy.decide (sampleCase Urgency.SOON (60 / 100)) (80 / 100) (75 / 100)
        true true).action = RoutingAction.QUEUE_REVIEW ∧
    (RoutingPolicy.decide (sampleCase Urgency.SOON (60 / 100)) (80 / 100) (75 / 100)
        true true).reason = "Confidence below policy threshold." ∧
    (RoutingPolicy.decide (sampleCase Urgency.EMERGENCY (60 / 100)) (80 / 100) (75 / 100)
        true true).action = RoutingAction.ESCALATE := by
  refine ⟨?_, ?_, ?_, ?_, ?_, ?_, ?_, ?_⟩
  · intro h1 h2
    simp [RoutingPolicy.decide, h1, h2]
  · intro h1 h2 h3
    simp [RoutingPolicy.decide, h1, h2, h3]
  · intro h1 h2 h3
    simp [RoutingPolicy.decide, h1, h2, h3]
  · intro h1 h2 h3 h4
    simp [RoutingPolicy.decide, h1, h2, h3, h4]
  · intro h1 h2 h3 h4
    simp [RoutingPolicy.decide, h1, h2, h3, h4]
  · norm_num [RoutingPolicy.decide, sampleCase]
    decide
  · norm_num [RoutingPolicy.decide, sampleCase]
  · norm_num [RoutingPolicy.decide, sampleCase]

/-- Witness for `routing_policy_order` at a concrete case (rule 3 firing). -/
theorem routing_policy_order_witness :
    (RoutingPolicy.decide (sampleCase Urgency.SOON (60 / 100)) (80 / 100) (75 / 100)
        true true).action =
      (if (sampleCase Urgency.SOON (60 / 100)).urgency = Urgency.EMERGENCY then
        RoutingAction.ESCALATE else RoutingAction.QUEUE_REVIEW) ∧
    (RoutingPolicy.decide (sampleCase Urgency.SOON (60 / 100)) (80 / 100) (75 / 100)
        true true).reason = "Confidence below policy threshold." :=
  (routing_policy_order (sampleCase Urgency.SOON (60 / 100)) (80 / 100) (75 / 100)
      true true).2.2.1
    (by simp [sampleCase]) (by simp [sampleCase]) (by norm_num [sampleCase])

/-- **C9** — Reasoner fallback degradation.  Whenever the primary reasoner of
`HybridTriageReasoner.analyze` raises, the result is the fallback reasoner's
result with `human_routing_flag = true`, confidence `min original 0.79`
(hence at most `0.79`), and a fallback note appended to the rationale; the
primary's exception is never propagated. -/
theorem hybrid_fallback_degradation
    (primary fallback : Nat → String → String → Except String TriageResult)
    (age : Nat) (sex symptoms : String) (e : String) (fr : TriageResult)
    (hp : primary age sex symptoms = Except.error e)
    (hf : fallback age sex symptoms = Except.ok fr) :
    HybridTriageReasoner.analyze primary fallback age sex symptoms =
      Except.ok { fr with
        human_routing_flag := true
        confidence := min fr.confidence (79 / 100)
        rationale := fr.rationale ++
          " Fallback reasoner used because LLM structured output failed." } ∧
    ∃ r, HybridTriageReasoner.analyze primary fallback age sex symptoms = Except.ok r ∧
      r.human_routing_flag = true ∧
      r.confidence = min fr.confidence (79 / 100) ∧
      r.confidence ≤ 79 / 100 ∧
      r.rationale = fr.rationale ++
        " Fallback reasoner used because LLM structured output failed." := by
  have h : HybridTriageReasoner.analyze primary fallback age sex symptoms =
      Except.ok { fr with
        human_routing_flag := true
        confidence := min fr.confidence (79 / 100)
        rationale := fr.rationale ++
          " Fallback reasoner used because LLM structured output failed." } := by
    simp [HybridTriageReasoner.analyze, hp, hf]
  exact ⟨h, _, h, rfl, rfl, min_le_right _ _, rfl⟩

/-- Witness for `hybrid_fallback_degradation`: a primary that always raises
and a fallback that returns a fixed confident result. -/
theorem hybrid_fallback_degradation_witness :
    HybridTriageReasoner.analyze
        (fun _ _ _ => Except.error "LLM structured output failed")
        (fun _ _ _ => Except.ok (sampleCase Urgency.SOON (95 / 100)))
        30 "F" "cough" =
      Except.ok { sampleCase Urgency.SOON (95 / 100) with
        human_routing_flag := true
        confidence := min ((sampleCase Urgency.SOON (95 / 100)).confidence) (79 / 100)
        rationale := (sampleCase Urgency.SOON (95 / 100)).rationale ++
          " Fallback reasoner used because LLM structured output failed." } :=
  (hybrid_fallback_degradation
    (fun _ _ _ => Except.error "LLM structured output failed")
    (fun _ _ _ => Except.ok (sampleCase Urgency.SOON (95 / 100)))
    30 "F" "cough" "LLM structured output failed" (sampleCase Urgency.SOON (95 / 100))
    rfl rfl).1

/-! ## The database state and repository operations (`database.py`) -/

/-- Slot lifecycle states (`slots.status` column; only these two values are
ever written by the code). -/
inductive SlotStatus where
  | AVAILABLE
  | BOOKED
deriving DecidableEq, Repr

/-- A row of the `slots` table. -/
structure Slot where
  id : Nat
  department : String
  provider : String
  start_at : Nat
  end_at : Nat
  status : SlotStatus
  appointment_id : Option Nat
deriving DecidableEq, Repr

/-- A row of the `appointments` table.  The code only ever writes status
`"BOOKED"`; the column is kept as a string because the SQL filters compare
it against that literal. -/
structure Appointment where
  id : Nat
  patient_id : Nat
  triage_event_id : Nat
  urgency : Urgency
  department : String
  provider : String
  slot_id : Nat
  status : String
  note : String
  preempted_from_appointment_id : Option Nat
deriving DecidableEq, Repr

/-- A row of the `appointment_activity` table; the JSON `details` payload is
kept as a key/value list. -/
structure Activity where
  appointment_id : Nat
  activity_type : String
  details : List (String × String)
deriving DecidableEq, Repr

/-- A row of the `nurse_queue` table (the columns `list_queue` uses). -/
structure QueueItem where
  id : Nat
  triage_event_id : Nat
  status : String
  reason : String
  priority : String
  created_at : Nat
deriving DecidableEq, Repr

/-- The mutable database state touched by the scheduler: the `slots`,
`appointments`, `appointment_activity` and `nurse_queue` tables, plus the
autoincrement counter of `appointments.id`. -/
structure DB where
  slots : List Slot
  appointments : List Appointment
  activity : List Activity
  queue : List QueueItem
  next_appointment_id : Nat
deriving DecidableEq, Repr

/-- The scheduler-relevant configuration (`config.py`), with its defaults. -/
structure TriageConfig where
  auto_book_confidence_threshold : ℚ := 80 / 100
  department_score_threshold : ℚ := 75 / 100
  always_route_when_model_requests_human : Bool := true
  auto_book_high_urgency : Bool := true
  preemption_enabled : Bool := true
  fallback_window_minutes : Nat := 60 * 24 * 90
  urgency_windows_minutes : Urgency → Nat := fun u =>
    match u with
    | Urgency.EMERGENCY => 60 * 4
    | Urgency.URGENT => 60 * 48
    | Urgency.SOON => 60 * 24 * 7
    | Urgency.ROUTINE => 60 * 24 * 28

/-- The default configuration object (`TriageConfig()` in `config.py`). -/
def defaultConfig : TriageConfig := {}

/-- `SQLiteRepository.get_slot`: `SELECT * FROM slots WHERE id = ?`. -/
def get_slot (db : DB) (slot_id : Nat) : Option Slot :=
  db.slots.find? (fun s => s.id == slot_id)

/-- Row filter of `find_available_slot`: department match, `AVAILABLE`,
`start_at` within the closed interval. -/
def slot_in_window (department : String) (a b : Nat) (s : Slot) : Bool :=
  s.department == department && s.status == SlotStatus.AVAILABLE &&
    decide (a ≤ s.start_at) && decide (s.start_at ≤ b)

/-- `ORDER BY start_at ASC LIMIT 1` over a row list: the first row carrying
the minimal `start_at`. -/
def earliest_slot : List Slot → Option Slot
  | [] => none
  | s :: rest =>
    match earliest_slot rest with
    | none => some s
    | some t => if s.start_at ≤ t.start_at then some s else some t

/-- `SQLiteRepository.find_available_slot`: earliest `AVAILABLE` slot of the
department with `start_at ∈ [start_at, end_at]`. -/
def find_available_slot (db : DB) (department : String) (start_at end_at : Nat) :
    Option Slot :=
  earliest_slot (db.slots.filter (slot_in_window department start_at end_at))

/-- `SQLiteRepository.find_next_available_slot`: earliest `AVAILABLE` slot of
the department with `start_at ≥ start_at` and, when an upper bound is given,
`start_at ≤ end_at`. -/
def find_next_available_slot (db : DB) (department : String) (start_at : Nat)
    (end_at : Option Nat) : Option Slot :=
  earliest_slot (db.slots.filter (fun s =>
    s.department == department && s.status == SlotStatus.AVAILABLE &&
      decide (start_at ≤ s.start_at) &&
      (match end_at with
       | none => true
       | some b => decide (s.start_at ≤ b))))

/-- The join rows of `find_preemptable_appointment`'s query: `BOOKED`
appointments of the department joined with their slot, slot starting on or
before `window_end`, filtered (as the Python loop does) to strictly
lower-ranked urgencies. -/
def preempt_candidates (db : DB) (department : String) (higher_urgency : Urgency)
    (window_end : Nat) : List (Appointment × Slot) :=
  db.appointments.filterMap (fun a =>
    if a.status == "BOOKED" && a.department == department then
      match get_slot db a.slot_id with
      | some s =>
        if decide (s.start_at ≤ window_end) &&
            decide (urgency_rank a.urgency < urgency_rank higher_urgency) then
          some (a, s)
        else none
      | none => none
    else none)

/-- Sort key of the Python candidate sort: `(urgency_rank, slot start)`. -/
def preempt_key (c : Appointment × Slot) : Nat × Nat :=
  (urgency_rank c.1.urgency, c.2.start_at)

/-- Lexicographic comparison of preemption sort keys. -/
def key_le (x y : Nat × Nat) : Bool :=
  decide (x.1 < y.1) || (x.1 == y.1 && decide (x.2 ≤ y.2))

/-- First row of the stable sort by `preempt_key`: the first candidate
carrying the lexicographically minimal key. -/
def best_candidate : List (Appointment × Slot) → Option (Appointment × Slot)
  | [] => none
  | c :: rest =>
    match best_candidate rest with
    | none => some c
    | some d => if key_le (preempt_key c) (preempt_key d) then some c else some d

/-- `SQLiteRepository.find_preemptable_appointment`. -/
def find_preemptable_appointment (db : DB) (department : String)
    (higher_urgency : Urgency) (window_end : Nat) : Option (Appointment × Slot) :=
  best_candidate (preempt_candidates db department higher_urgency window_end)

/-- `SQLiteRepository.log_appointment_activity`: append one activity row. -/
def log_appointment_activity (db : DB) (appointment_id : Nat)
    (activity_type : String) (details : List (String × String)) : DB :=
  { db with activity := db.activity ++
      [{ appointment_id := appointment_id, activity_type := activity_type,
         details := details }] }

/-- `SQLiteRepository.create_appointment`.  The conditional
`UPDATE slots SET status = 'BOOKED' WHERE id = ? AND status = 'AVAILABLE'`
must affect exactly one row, otherwise the call raises
"Slot is no longer available." and the transaction rolls back; on success
the appointment row is inserted, the slot's `appointment_id` is set, and a
`BOOKED` activity is logged.  Returns the new appointment id. -/
def create_appointment (db : DB) (patient_id triage_event_id : Nat)
    (urgency : Urgency) (department provider : String) (slot_id : Nat)
    (note : String) (preempted_from_appointment_id : Option Nat) :
    Except String (DB × Nat) :=
  if db.slots.countP
      (fun t => t.id == slot_id && t.status == SlotStatus.AVAILABLE) = 1 then
    let aid := db.next_appointment_id
    let slots1 := db.slots.map (fun t =>
      if t.id == slot_id && t.status == SlotStatus.AVAILABLE then
        { t with status := SlotStatus.BOOKED }
      else t)
    let slots2 := slots1.map (fun t =>
      if t.id == slot_id then { t with appointment_id := some aid } else t)
    let appt : Appointment :=
      { id := aid, patient_id := patient_id, triage_event_id := triage_event_id,
        urgency := urgency, department := department, provider := provider,
        slot_id := slot_id, status := "BOOKED", note := note,
        preempted_from_appointment_id := preempted_from_appointment_id }
    let act : Activity :=
      { appointment_id := aid, activity_type := "BOOKED",
        details := [("slot_id", toString slot_id), ("note", note),
                    ("urgency", urgencyStr urgency)] }
    Except.ok
      ({ db with
          slots := slots2
          appointments := db.appointments ++ [appt]
          activity := db.activity ++ [act]
          next_appointment_id := aid + 1 }, aid)
  else
    Except.error "Slot is no longer available."

/-- Python `str.strip(" |")`: drop spaces and pipes from both ends. -/
def strip_pipe_space (s : String) : String :=
  String.mk
    ((((s.data.dropWhile (fun c => c == ' ' || c == '|')).reverse.dropWhile
      (fun c => c == ' ' || c == '|')).reverse))

/-- `SQLiteRepository.move_appointment_to_slot`: look up the `BOOKED`
appointment and the target slot (which must exist and be `AVAILABLE`,
otherwise the call raises and the transaction rolls back), then free the old
slot, bind the new slot to the appointment, update the appointment row, and
log a `RESCHEDULED` activity. -/
def move_appointment_to_slot (db : DB) (appointment_id new_slot_id : Nat)
    (note : String) : Except String DB :=
  match db.appointments.find? (fun a => a.id == appointment_id && a.status == "BOOKED") with
  | none => Except.error "Booked appointment not found for move."
  | some appt =>
    match db.slots.find? (fun s => s.id == new_slot_id) with
    | none => Except.error "Target slot not found for move."
    | some new_slot =>
      if new_slot.status = SlotStatus.AVAILABLE then
        let old_slot_id := appt.slot_id
        let new_note := strip_pipe_space (appt.note ++ " | " ++ note)
        let slots1 := db.slots.map (fun t =>
          if t.id == old_slot_id then
            { t with status := SlotStatus.AVAILABLE, appointment_id := none }
          else t)
        let slots2 := slots1.map (fun t =>
          if t.id == new_slot_id then
            { t with status := SlotStatus.BOOKED, appointment_id := some appointment_id }
          else t)
        let appts := db.appointments.map (fun a =>
          if a.id == appointment_id then
            { a with
                slot_id := new_slot_id
                provider := new_slot.provider
                note := new_note }
          else a)
        let act : Activity :=
          { appointment_id := appointment_id, activity_type := "RESCHEDULED",
            details := [("old_slot_id", toString old_slot_id),
                        ("new_slot_id", toString new_slot_id), ("note", note)] }
        Except.ok { db with
          slots := slots2
          appointments := appts
          activity := db.activity ++ [act] }
      else Except.error "Target slot is not available for move."

/-- `BookingResult` / `AppointmentResult` from `models.py`. -/
structure AppointmentResult where
  status : String
  appointment_id : Option Nat := none
  slot_id : Option Nat := none
  slot_start : Option Nat := none
  note : String := ""
  preempted_appointment_id : Option Nat := none
deriving DecidableEq, Repr

/-- `Scheduler.book` from `scheduler.py`, one atomic transaction:
direct match, then (SOON/ROUTINE only) the fallback window, then
(URGENT/EMERGENCY, when enabled and allowed) preemption.  An `Except.error`
result is a raised exception: the transaction rolls back and no mutation
survives. -/
def book (cfg : TriageConfig) (db : DB) (now : Nat)
    (patient_id triage_event_id : Nat) (urgency : Urgency)
    (department note : String) (allow_preemption : Bool) :
    Except String (DB × AppointmentResult) :=
  let window_end := now + cfg.urgency_windows_minutes urgency
  let fallback_end := now + cfg.fallback_window_minutes
  match find_available_slot db department now window_end with
  | some slot =>
    match create_appointment db patient_id triage_event_id urgency department
        slot.provider slot.id note none with
    | Except.error e => Except.error e
    | Except.ok (db1, aid) =>
      Except.ok (db1,
        { status := "BOOKED", appointment_id := some aid, slot_id := some slot.id,
          slot_start := some slot.start_at, note := note })
  | none =>
    if urgency = Urgency.SOON ∨ urgency = Urgency.ROUTINE then
      match find_next_available_slot db department window_end (some fallback_end) with
      | some fallback_slot =>
        match create_appointment db patient_id triage_event_id urgency department
            fallback_slot.provider fallback_slot.id
            (note ++ " | booked outside ideal urgency window") none with
        | Except.error e => Except.error e
        | Except.ok (db1, aid) =>
          Except.ok (db1,
            { status := "BOOKED_FALLBACK", appointment_id := some aid,
              slot_id := some fallback_slot.id,
              slot_start := some fallback_slot.start_at,
              note := note ++ " | booked outside ideal urgency window" })
      | none =>
        Except.ok (db,
          { status := "ESCALATED",
            note := "No available slots found within fallback window." })
    else if ¬(allow_preemption = true ∧ cfg.preemption_enabled = true) then
      Except.ok (db,
        { status := "ESCALATED",
          note := "No available slot in urgency window and preemption disabled." })
    else
      match find_preemptable_appointment db department urgency window_end with
      | none =>
        Except.ok (db,
          { status := "ESCALATED",
            note := "No lower-priority appointment available for preemption." })
      | some cand =>
        match find_next_available_slot db department window_end (some fallback_end) with
        | none =>
          Except.ok (db,
            { status := "ESCALATED",
              note := "Preemption blocked: could not safely reschedule the preempted patient." })
        | some replacement_slot =>
          match move_appointment_to_slot db cand.1.id replacement_slot.id
              ("Preempted by higher-priority case; auto-rescheduled to " ++
                toString replacement_slot.start_at) with
          | Except.error e => Except.error e
          | Except.ok db1 =>
            match get_slot db1 cand.1.slot_id with
            | none => Except.error "Preempted slot lookup failed."
            | some preempted_slot =>
              match create_appointment db1 patient_id triage_event_id urgency
                  department preempted_slot.provider preempted_slot.id
                  (note ++ " | preemption applied") (some cand.1.id) with
              | Except.error e => Except.error e
              | Except.ok (db2, aid) =>
                let db3 := log_appointment_activity db2 cand.1.id "PREEMPTED_OUT"
                  [("by_appointment_id", toString aid),
                   ("new_slot_id", toString replacement_slot.id)]
                let db4 := log_appointment_activity db3 aid "PREEMPTED_IN"
                  [("preempted_appointment_id", toString cand.1.id),
                   ("slot_id", toString preempted_slot.id)]
                Except.ok (db4,
                  { status := "PREEMPTED", appointment_id := some aid,
                    slot_id := some preempted_slot.id,
                    slot_start := some preempted_slot.start_at,
                    note := "Booked by preempting a lower-priority case.",
                    preempted_appointment_id := some cand.1.id })

/-- Priority ranking of the `ORDER BY CASE q.priority ...` clause of
`list_queue`: EMERGENCY 4, URGENT 3, SOON 2, anything else 1. -/
def priority_rank (p : String) : Nat :=
  if p == "EMERGENCY" then 4
  else if p == "URGENT" then 3
  else if p == "SOON" then 2
  else 1

/-- The `list_queue` row ordering: priority rank descending, then
`created_at` ascending. -/
def queue_le (a b : QueueItem) : Prop :=
  priority_rank b.priority < priority_rank a.priority ∨
    (priority_rank a.priority = priority_rank b.priority ∧ a.created_at ≤ b.created_at)

instance : DecidableRel queue_le := fun a b => by
  unfold queue_le
  exact inferInstance

instance : IsTotal QueueItem queue_le := by
  constructor
  intro a b
  unfold queue_le
  omega

instance : IsTrans QueueItem queue_le := by
  constructor
  intro a b c hab hbc
  unfold queue_le at hab hbc ⊢
  omega

/-- `SQLiteRepository.list_queue`: the queue rows of the requested status,
ordered by priority rank descending then `created_at` ascending, limited. -/
def list_queue (db : DB) (status : String) (limit : Nat) : List QueueItem :=
  (((db.queue.filter (fun q => q.status == status)).insertionSort queue_le).take limit)

/-! ## Search lemmas -/

theorem earliest_slot_none {l : List Slot} : earliest_slot l = none ↔ l = [] := by
  cases l with
  | nil => simp [earliest_slot]
  | cons a rest =>
    simp only [earliest_slot]
    cases h : earliest_slot rest with
    | none => simp
    | some u => by_cases hle : a.start_at ≤ u.start_at <;> simp [hle]

theorem earliest_slot_mem : ∀ {l : List Slot} {s : Slot},
    earliest_slot l = some s → s ∈ l := by
  intro l
  induction l with
  | nil => intro s h; simp [earliest_slot] at h
  | cons a rest ih =>
    intro s h
    simp only [earliest_slot] at h
    cases hrest : earliest_slot rest with
    | none =>
      simp only [hrest] at h
      simp at h
      simp [h]
    | some u =>
      simp only [hrest] at h
      by_cases hle : a.start_at ≤ u.start_at
      · simp [hle] at h
        simp [h]
      · simp [hle] at h
        subst h
        exact List.mem_cons_of_mem _ (ih hrest)

theorem earliest_slot_min : ∀ {l : List Slot} {s : Slot},
    earliest_slot l = some s → ∀ t ∈ l, s.start_at ≤ t.start_at := by
  intro l
  induction l with
  | nil => intro s h; simp [earliest_slot] at h
  | cons a rest ih =>
    intro s h t ht
    simp only [earliest_slot] at h
    cases hrest : earliest_slot rest with
    | none =>
      simp only [hrest] at h
      have hr : rest = [] := earliest_slot_none.mp hrest
      subst hr
      simp at h ht
      subst h
      subst ht
      exact le_refl _
    | some u =>
      simp only [hrest] at h
      have hmin := ih hrest
      rcases List.mem_cons.mp ht with heq | hmem
      · subst heq
        by_cases hle : t.start_at ≤ u.start_at
        · simp [hle] at h; subst h; exact le_refl _
        · simp [hle] at h; subst h; omega
      · by_cases hle : a.start_at ≤ u.start_at
        · simp [hle] at h; subst h; exact le_trans hle (hmin t hmem)
        · simp [hle] at h; subst h; exact hmin t hmem

/-- The row predicate of `find_next_available_slot` with an upper bound. -/
theorem find_next_available_slot_eq_none {db : DB} {dept : String} {a b : Nat}
    (h : ∀ s ∈ db.slots, s.department = dept → s.status = SlotStatus.AVAILABLE →
      a ≤ s.start_at → ¬(s.start_at ≤ b)) :
    find_next_available_slot db dept a (some b) = none := by
  unfold find_next_available_slot
  rw [earliest_slot_none, List.filter_eq_nil_iff]
  intro s hs hcontra
  simp only [Bool.and_eq_true, beq_iff_eq, decide_eq_true_eq] at hcontra
  exact h s hs hcontra.1.1.1 hcontra.1.1.2 hcontra.1.2 hcontra.2

theorem find_next_available_slot_some {db : DB} {dept : String} {a b : Nat} {s : Slot}
    (h : find_next_available_slot db dept a (some b) = some s) :
    s ∈ db.slots ∧ s.department = dept ∧ s.status = SlotStatus.AVAILABLE ∧
      a ≤ s.start_at ∧ s.start_at ≤ b ∧
      ∀ t ∈ db.slots, t.department = dept → t.status = SlotStatus.AVAILABLE →
        a ≤ t.start_at → t.start_at ≤ b → s.start_at ≤ t.start_at := by
  unfold find_next_available_slot at h
  have hmem := earliest_slot_mem h
  have hmin := earliest_slot_min h
  rw [List.mem_filter] at hmem
  obtain ⟨hs, hpred⟩ := hmem
  simp only [Bool.and_eq_true, beq_iff_eq, decide_eq_true_eq] at hpred
  refine ⟨hs, hpred.1.1.1, hpred.1.1.2, hpred.1.2, hpred.2, ?_⟩
  intro t ht h1 h2 h3 h4
  apply hmin
  rw [List.mem_filter]
  exact ⟨ht, by simp [h1, h2, h3, h4]⟩

theorem find_available_slot_eq_none {db : DB} {dept : String} {a b : Nat}
    (h : ∀ s ∈ db.slots, s.department = dept → s.status = SlotStatus.AVAILABLE →
      a ≤ s.start_at → ¬(s.start_at ≤ b)) :
    find_available_slot db dept a b = none := by
  unfold find_available_slot
  rw [earliest_slot_none, List.filter_eq_nil_iff]
  intro s hs hcontra
  unfold slot_in_window at hcontra
  simp only [Bool.and_eq_true, beq_iff_eq, decide_eq_true_eq] at hcontra
  exact h s hs hcontra.1.1.1 hcontra.1.1.2 hcontra.1.2 hcontra.2

theorem find_available_slot_some {db : DB} {dept : String} {a b : Nat} {s : Slot}
    (h : find_available_slot db dept a b = some s) :
    s ∈ db.slots ∧ s.department = dept ∧ s.status = SlotStatus.AVAILABLE ∧
      a ≤ s.start_at ∧ s.start_at ≤ b ∧
      ∀ t ∈ db.slots, t.department = dept → t.status = SlotStatus.AVAILABLE →
        a ≤ t.start_at → t.start_at ≤ b → s.start_at ≤ t.start_at := by
  unfold find_available_slot at h
  have hmem := earliest_slot_mem h
  have hmin := earliest_slot_min h
  rw [List.mem_filter] at hmem
  obtain ⟨hs, hpred⟩ := hmem
  unfold slot_in_window at hpred
  simp only [Bool.and_eq_true, beq_iff_eq, decide_eq_true_eq] at hpred
  refine ⟨hs, hpred.1.1.1, hpred.1.1.2, hpred.1.2, hpred.2, ?_⟩
  intro t ht h1 h2 h3 h4
  apply hmin
  rw [List.mem_filter]
  unfold slot_in_window
  exact ⟨ht, by simp [h1, h2, h3, h4]⟩

theorem find_available_slot_exists {db : DB} {dept : String} {a b : Nat}
    (h : ∃ s ∈ db.slots, s.department = dept ∧ s.status = SlotStatus.AVAILABLE ∧
      a ≤ s.start_at ∧ s.start_at ≤ b) :
    ∃ s, find_available_slot db dept a b = some s := by
  cases hf : find_available_slot db dept a b with
  | some s => exact ⟨s, rfl⟩
  | none =>
    exfalso
    obtain ⟨s, hs, h1, h2, h3, h4⟩ := h
    unfold find_available_slot at hf
    rw [earliest_slot_none, List.filter_eq_nil_iff] at hf
    have := hf s hs
    simp [slot_in_window, h1, h2, h3, h4] at this

/-! ## C4: booking exclusivity check -/

/-- **C4** — Booking exclusivity check.  `create_appointment` flips the slot
to BOOKED only if it is currently AVAILABLE: if no slot row with the given
id is AVAILABLE (the conditional update affects zero rows) the call fails
with the "Slot is no longer available." error — the raised error rolls the
transaction back, so no appointment row is created; on success, the slot row
with this id was AVAILABLE, every other slot row is untouched, and exactly
the one new appointment row referencing the slot is appended. -/
theorem create_appointment_exclusivity (db : DB) (pid tev : Nat) (u : Urgency)
    (dept prov : String) (sid : Nat) (note : String) (pfa : Option Nat) :
    ((∀ s ∈ db.slots, s.id = sid → s.status ≠ SlotStatus.AVAILABLE) →
      create_appointment db pid tev u dept prov sid note pfa =
        Except.error "Slot is no longer available.") ∧
    (∀ db' aid, create_appointment db pid tev u dept prov sid note pfa =
        Except.ok (db', aid) →
      (∃ s ∈ db.slots, s.id = sid ∧ s.status = SlotStatus.AVAILABLE) ∧
      (∀ s ∈ db.slots, s.id ≠ sid → s ∈ db'.slots) ∧
      aid = db.next_appointment_id ∧
      db'.appointments = db.appointments ++
        [{ id := db.next_appointment_id, patient_id := pid, triage_event_id := tev,
           urgency := u, department := dept, provider := prov, slot_id := sid,
           status := "BOOKED", note := note,
           preempted_from_appointment_id := pfa }]) := by
  constructor
  · intro hnone
    have hcount : db.slots.countP
        (fun t => t.id == sid && t.status == SlotStatus.AVAILABLE) = 0 := by
      rw [List.countP_eq_zero]
      intro s hs
      simp only [Bool.and_eq_true, beq_iff_eq, not_and]
      exact fun h1 h2 => hnone s hs h1 h2
    unfold create_appointment
    rw [if_neg (by omega : ¬db.slots.countP
      (fun t => t.id == sid && t.status == SlotStatus.AVAILABLE) = 1)]
  · intro db' aid hok
    unfold create_appointment at hok
    by_cases hcount : db.slots.countP
        (fun t => t.id == sid && t.status == SlotStatus.AVAILABLE) = 1
    · rw [if_pos hcount] at hok
      simp only [Except.ok.injEq, Prod.mk.injEq] at hok
      obtain ⟨hdb, haid⟩ := hok
      subst hdb
      subst haid
      have hpos : 0 < db.slots.countP
          (fun t => t.id == sid && t.status == SlotStatus.AVAILABLE) := by omega
      rw [List.countP_pos_iff] at hpos
      obtain ⟨s, hs, hps⟩ := hpos
      simp only [Bool.and_eq_true, beq_iff_eq] at hps
      refine ⟨⟨s, hs, hps.1, hps.2⟩, ?_, rfl, rfl⟩
      intro t ht hne
      simp only [List.map_map]
      refine List.mem_map.mpr ⟨t, ht, ?_⟩
      simp [Function.comp, hne]
    · rw [if_neg hcount] at hok
      simp at hok

/-- Witness input for the exclusivity claims: a single already-BOOKED slot. -/
def bookedSlot : Slot :=
  { id := 1, department := "Cardiology", provider := "Dr. Shah", start_at := 60,
    end_at := 105, status := SlotStatus.BOOKED, appointment_id := some 1 }

/-- A ROUTINE appointment holding `bookedSlot`. -/
def routineAppt : Appointment :=
  { id := 1, patient_id := 5, triage_event_id := 6, urgency := Urgency.ROUTINE,
    department := "Cardiology", provider := "Dr. Shah", slot_id := 1,
    status := "BOOKED", note := "orig", preempted_from_appointment_id := none }

/-- A department with one BOOKED slot held by one ROUTINE appointment and no
AVAILABLE slot anywhere. -/
def guardDB : DB :=
  { slots := [bookedSlot], appointments := [routineAppt], activity := [],
    queue := [], next_appointment_id := 2 }

/-- Witness for `create_appointment_exclusivity`: booking the already-BOOKED
slot of `guardDB` fails with the exclusivity error. -/
theorem create_appointment_exclusivity_witness :
    create_appointment guardDB 10 20 Urgency.URGENT "Cardiology" "Dr. Shah" 1 "x"
      none = Except.error "Slot is no longer available." :=
  (create_appointment_exclusivity guardDB 10 20 Urgency.URGENT "Cardiology"
    "Dr. Shah" 1 "x" none).1 (by decide)

/-! ## C2: preemption safety guard -/

/-- **C2** — Preemption safety guard.  When `Scheduler.book` reaches the
preemption step (no direct slot, URGENT/EMERGENCY urgency, preemption
enabled and allowed) and finds a preemptable candidate, but no AVAILABLE
slot of the department lies between `windowEnd` and the fallback window end,
`book` returns ESCALATED with the preemption-blocked note and the returned
state is exactly the input state — no slot status, `appointment_id`, or
appointment row is mutated. -/
theorem preemption_guard_no_mutation (cfg : TriageConfig) (db : DB)
    (now pid tev : Nat) (urgency : Urgency) (department note : String)
    (allow_preemption : Bool) (cand : Appointment × Slot)
    (hd : find_available_slot db department now
      (now + cfg.urgency_windows_minutes urgency) = none)
    (hu : urgency = Urgency.URGENT ∨ urgency = Urgency.EMERGENCY)
    (ha : allow_preemption = true) (he : cfg.preemption_enabled = true)
    (hc : find_preemptable_appointment db department urgency
      (now + cfg.urgency_windows_minutes urgency) = some cand)
    (hr : ∀ s ∈ db.slots, s.department = department →
      s.status = SlotStatus.AVAILABLE →
      now + cfg.urgency_windows_minutes urgency ≤ s.start_at →
      ¬(s.start_at ≤ now + cfg.fallback_window_minutes)) :
    book cfg db now pid tev urgency department note allow_preemption =
      Except.ok (db,
        { status := "ESCALATED",
          note := "Preemption blocked: could not safely reschedule the preempted patient." }) := by
  have hnext : find_next_available_slot db department
      (now + cfg.urgency_windows_minutes urgency)
      (some (now + cfg.fallback_window_minutes)) = none :=
    find_next_available_slot_eq_none hr
  have hnotsr : ¬(urgency = Urgency.SOON ∨ urgency = Urgency.ROUTINE) := by
    rcases hu with h | h <;> subst h <;> simp
  simp [book, hd, hnext, hc, hnotsr, ha, he]

/-- Witness for `preemption_guard_no_mutation` on `guardDB` (one preemptable
ROUTINE appointment, no replacement slot anywhere). -/
theorem preemption_guard_no_mutation_witness :
    book defaultConfig guardDB 0 10 20 Urgency.URGENT "Cardiology" "x" true =
      Except.ok (guardDB,
        { status := "ESCALATED",
          note := "Preemption blocked: could not safely reschedule the preempted patient." }) :=
  preemption_guard_no_mutation defaultConfig guardDB 0 10 20 Urgency.URGENT
    "Cardiology" "x" true (routineAppt, bookedSlot) rfl (Or.inl rfl) rfl rfl rfl
    (by decide)

/-! ## Schema well-formedness and the slot-exclusivity invariant -/

/-- Number of `BOOKED` appointment rows referencing a slot id. -/
def refCount (db : DB) (sid : Nat) : Nat :=
  db.appointments.countP (fun a => a.status == "BOOKED" && a.slot_id == sid)

/-- Schema-conforming state satisfying the slot-exclusivity invariant:
ids are `INTEGER PRIMARY KEY AUTOINCREMENT` columns, so slot ids and
appointment ids are pairwise distinct and every appointment id is below the
autoincrement counter; every `BOOKED` slot is referenced by exactly one
appointment (so no two appointments share a slot that exists), and every
`AVAILABLE` slot has no appointment reference. -/
structure WellFormed (db : DB) : Prop where
  slot_ids_nodup : (db.slots.map Slot.id).Nodup
  appt_ids_nodup : (db.appointments.map Appointment.id).Nodup
  appt_ids_lt : ∀ a ∈ db.appointments, a.id < db.next_appointment_id
  booked_unique : ∀ s ∈ db.slots, s.status = SlotStatus.BOOKED → refCount db s.id = 1
  avail_free : ∀ s ∈ db.slots, s.status = SlotStatus.AVAILABLE →
    refCount db s.id = 0 ∧ s.appointment_id = none

/-- With pairwise-distinct slot ids, an `AVAILABLE` member slot makes the
conditional-update row count of `create_appointment` exactly one. -/
theorem countP_avail_one {l : List Slot} (hnodup : (l.map Slot.id).Nodup)
    {s : Slot} (hs : s ∈ l) (hav : s.status = SlotStatus.AVAILABLE) :
    l.countP (fun t => t.id == s.id && t.status == SlotStatus.AVAILABLE) = 1 := by
  obtain ⟨l1, l2, rfl⟩ := List.append_of_mem hs
  rw [List.map_append, List.map_cons, List.nodup_append] at hnodup
  obtain ⟨hn1, hn2, hdisj⟩ := hnodup
  have hnotl1 : ∀ t ∈ l1, t.id ≠ s.id := by
    intro t ht heq
    exact hdisj (List.mem_map_of_mem _ ht) (by simp [heq])
  have hnotl2 : ∀ t ∈ l2, t.id ≠ s.id := by
    intro t ht heq
    rw [List.nodup_cons] at hn2
    exact hn2.1 (heq ▸ List.mem_map_of_mem _ ht)
  rw [List.countP_append, List.countP_cons]
  have h1 : l1.countP (fun t => t.id == s.id && t.status == SlotStatus.AVAILABLE) = 0 := by
    rw [List.countP_eq_zero]
    intro t ht
    simp only [Bool.and_eq_true, beq_iff_eq, not_and]
    exact fun heq => absurd heq (hnotl1 t ht)
  have h2 : l2.countP (fun t => t.id == s.id && t.status == SlotStatus.AVAILABLE) = 0 := by
    rw [List.countP_eq_zero]
    intro t ht
    simp only [Bool.and_eq_true, beq_iff_eq, not_and]
    exact fun heq => absurd heq (hnotl2 t ht)
  simp [h1, h2, hav]

/-- The success equation of `create_appointment` on an `AVAILABLE` member
slot of a state with pairwise-distinct slot ids. -/
theorem create_appointment_ok {db : DB} (hnodup : (db.slots.map Slot.id).Nodup)
    {s : Slot} (hs : s ∈ db.slots) (hav : s.status = SlotStatus.AVAILABLE)
    (pid tev : Nat) (u : Urgency) (dept prov note : String) (pfa : Option Nat) :
    create_appointment db pid tev u dept prov s.id note pfa =
      Except.ok
        ({ db with
            slots := (db.slots.map (fun t =>
              if t.id == s.id && t.status == SlotStatus.AVAILABLE then
                { t with status := SlotStatus.BOOKED }
              else t)).map (fun t =>
                if t.id == s.id then
                  { t with appointment_id := some db.next_appointment_id }
                else t)
            appointments := db.appointments ++
              [{ id := db.next_appointment_id, patient_id := pid,
                 triage_event_id := tev, urgency := u, department := dept,
                 provider := prov, slot_id := s.id, status := "BOOKED",
                 note := note, preempted_from_appointment_id := pfa }]
            activity := db.activity ++
              [{ appointment_id := db.next_appointment_id,
                 activity_type := "BOOKED",
                 details := [("slot_id", toString s.id), ("note", note),
                             ("urgency", urgencyStr u)] }]
            next_appointment_id := db.next_appointment_id + 1 },
         db.next_appointment_id) := by
  unfold create_appointment
  rw [if_pos (countP_avail_one hnodup hs hav)]

/-! ## C7: direct match step -/

/-- A slot as flipped by a successful booking: BOOKED and referencing the
booking appointment. -/
def slotBookedAs (s : Slot) (aid : Nat) : Slot :=
  { s with status := SlotStatus.BOOKED, appointment_id := some aid }

/-- The Scenario A slot: AVAILABLE "General Medicine", 2h out. -/
def directSlot : Slot :=
  { id := 1, department := "General Medicine", provider := "Dr. Patel",
    start_at := 120, end_at := 165, status := SlotStatus.AVAILABLE,
    appointment_id := none }

/-- **C7** — Direct match.  With the default configuration the urgency
windows are EMERGENCY 4h, URGENT 48h, SOON 7d, ROUTINE 28d; whenever any
AVAILABLE slot of the department starts within `[now, now + window]`, the
slot search succeeds; and the found slot is the earliest AVAILABLE slot of
the department in that closed interval, `book` flips it to BOOKED with the
new appointment's id, appends the appointment referencing the slot, logs a
BOOKED activity, and returns status BOOKED with the slot's id and start. -/
theorem direct_match_step (cfg : TriageConfig) (db : DB) (now pid tev : Nat)
    (urgency : Urgency) (department note : String) (allow_preemption : Bool)
    (hW : WellFormed db) :
    (defaultConfig.urgency_windows_minutes Urgency.EMERGENCY = 4 * 60 ∧
     defaultConfig.urgency_windows_minutes Urgency.URGENT = 48 * 60 ∧
     defaultConfig.urgency_windows_minutes Urgency.SOON = 7 * 24 * 60 ∧
     defaultConfig.urgency_windows_minutes Urgency.ROUTINE = 28 * 24 * 60) ∧
    ((∃ s ∈ db.slots, s.department = department ∧ s.status = SlotStatus.AVAILABLE ∧
        now ≤ s.start_at ∧ s.start_at ≤ now + cfg.urgency_windows_minutes urgency) →
      ∃ s, find_available_slot db department now
        (now + cfg.urgency_windows_minutes urgency) = some s) ∧
    (∀ slot, find_available_slot db department now
        (now + cfg.urgency_windows_minutes urgency) = some slot →
      (slot ∈ db.slots ∧ slot.department = department ∧
        slot.status = SlotStatus.AVAILABLE ∧ now ≤ slot.start_at ∧
        slot.start_at ≤ now + cfg.urgency_windows_minutes urgency ∧
        (∀ t ∈ db.slots, t.department = department → t.status = SlotStatus.AVAILABLE →
          now ≤ t.start_at → t.start_at ≤ now + cfg.urgency_windows_minutes urgency →
          slot.start_at ≤ t.start_at)) ∧
      ∃ db', book cfg db now pid tev urgency department note allow_preemption =
          Except.ok (db',
            { status := "BOOKED", appointment_id := some db.next_appointment_id,
              slot_id := some slot.id, slot_start := some slot.start_at,
              note := note }) ∧
        slotBookedAs slot db.next_appointment_id ∈ db'.slots ∧
        (∃ a ∈ db'.appointments, a.id = db.next_appointment_id ∧
          a.slot_id = slot.id ∧ a.status = "BOOKED") ∧
        (∃ act ∈ db'.activity, act.appointment_id = db.next_appointment_id ∧
          act.activity_type = "BOOKED")) := by
  refine ⟨⟨rfl, rfl, rfl, rfl⟩, find_available_slot_exists, ?_⟩
  intro slot hfound
  obtain ⟨hmem, hdept, hav, hge, hle, hmin⟩ := find_available_slot_some hfound
  refine ⟨⟨hmem, hdept, hav, hge, hle, hmin⟩, ?_⟩
  have hc := create_appointment_ok hW.slot_ids_nodup hmem hav pid tev urgency
    department slot.provider note none
  refine ⟨_, by simp only [book, hfound, hc]; rfl, ?_, ?_, ?_⟩
  · simp only []
    rw [List.map_map]
    refine List.mem_map.mpr ⟨slot, hmem, ?_⟩
    simp [slotBookedAs, Function.comp, hav]
  · exact ⟨_, List.mem_append_right _ (List.mem_singleton.mpr rfl), rfl, rfl, rfl⟩
  · exact ⟨_, List.mem_append_right _ (List.mem_singleton.mpr rfl), rfl, rfl⟩

/-- The Scenario A state: one AVAILABLE "General Medicine" slot 2h out. -/
def directDB : DB :=
  { slots := [directSlot], appointments := [], activity := [], queue := [],
    next_appointment_id := 1 }

/-- Witness for `direct_match_step`: the Scenario A slot is found by the
direct search for a SOON case. -/
theorem direct_match_step_witness :
    ∃ s, find_available_slot directDB "General Medicine" 0
      (0 + defaultConfig.urgency_windows_minutes Urgency.SOON) = some s :=
  (direct_match_step defaultConfig directDB 0 10 20 Urgency.SOON
      "General Medicine" "note" true
      ⟨by decide, by decide, by decide, by decide, by decide⟩).2.1
    ⟨directSlot, by decide, by decide, by decide, by decide, by decide⟩

/-! ## C6: fallback-window booking -/

/-- **C6** — Fallback-window booking.  The fallback search runs only for
SOON/ROUTINE urgencies after the direct match finds nothing (a
BOOKED_FALLBACK outcome implies both); the slot it books lies strictly
after `windowEnd` and at most `now + fallbackWindow` and is the earliest
AVAILABLE department slot of that half-open interval; when found, `book`
returns BOOKED_FALLBACK with the "booked outside ideal urgency window"
annotation; when none is found, `book` returns ESCALATED without ever
reaching the preemption step. -/
theorem fallback_window_step (cfg : TriageConfig) (db : DB) (now pid tev : Nat)
    (urgency : Urgency) (department note : String) (allow_preemption : Bool)
    (hW : WellFormed db) :
    (∀ db' r, book cfg db now pid tev urgency department note allow_preemption =
        Except.ok (db', r) → r.status = "BOOKED_FALLBACK" →
      (urgency = Urgency.SOON ∨ urgency = Urgency.ROUTINE) ∧
      find_available_slot db department now
        (now + cfg.urgency_windows_minutes urgency) = none) ∧
    (find_available_slot db department now
        (now + cfg.urgency_windows_minutes urgency) = none →
      ∀ f, find_next_available_slot db department
          (now + cfg.urgency_windows_minutes urgency)
          (some (now + cfg.fallback_window_minutes)) = some f →
        f ∈ db.slots ∧ f.department = department ∧
        f.status = SlotStatus.AVAILABLE ∧
        now + cfg.urgency_windows_minutes urgency < f.start_at ∧
        f.start_at ≤ now + cfg.fallback_window_minutes ∧
        (∀ t ∈ db.slots, t.department = department →
          t.status = SlotStatus.AVAILABLE →
          now + cfg.urgency_windows_minutes urgency < t.start_at →
          t.start_at ≤ now + cfg.fallback_window_minutes →
          f.start_at ≤ t.start_at)) ∧
    (find_available_slot db department now
        (now + cfg.urgency_windows_minutes urgency) = none →
      (urgency = Urgency.SOON ∨ urgency = Urgency.ROUTINE) →
      ∀ f, find_next_available_slot db department
          (now + cfg.urgency_windows_minutes urgency)
          (some (now + cfg.fallback_window_minutes)) = some f →
        ∃ db', book cfg db now pid tev urgency department note allow_preemption =
          Except.ok (db',
            { status := "BOOKED_FALLBACK",
              appointment_id := some db.next_appointment_id,
              slot_id := some f.id, slot_start := some f.start_at,
              note := note ++ " | booked outside ideal urgency window" })) ∧
    (find_available_slot db department now
        (now + cfg.urgency_windows_minutes urgency) = none →
      (urgency = Urgency.SOON ∨ urgency = Urgency.ROUTINE) →
      find_next_available_slot db department
          (now + cfg.urgency_windows_minutes urgency)
          (some (now + cfg.fallback_window_minutes)) = none →
      book cfg db now pid tev urgency department note allow_preemption =
        Except.ok (db,
          { status := "ESCALATED",
            note := "No available slots found within fallback window." })) := by
  refine ⟨?_, ?_, ?_, ?_⟩
  · intro db' r hok hstat
    simp only [book] at hok
    cases hfa : find_available_slot db department now
        (now + cfg.urgency_windows_minutes urgency) with
    | some slot =>
      simp only [hfa] at hok
      exfalso
      cases hc : create_appointment db pid tev urgency department slot.provider
          slot.id note none with
      | error e => simp only [hc] at hok; exact Except.noConfusion hok
      | ok p =>
        obtain ⟨db1, aid⟩ := p
        simp only [hc] at hok
        simp only [Except.ok.injEq, Prod.mk.injEq] at hok
        rw [← hok.2] at hstat
        simp at hstat
    | none =>
      simp only [hfa] at hok
      by_cases hsr : urgency = Urgency.SOON ∨ urgency = Urgency.ROUTINE
      · exact ⟨hsr, rfl⟩
      · exfalso
        rw [if_neg hsr] at hok
        by_cases hp : ¬(allow_preemption = true ∧ cfg.preemption_enabled = true)
        · rw [if_pos hp] at hok
          simp only [Except.ok.injEq, Prod.mk.injEq] at hok
          rw [← hok.2] at hstat
          simp at hstat
        · rw [if_neg hp] at hok
          cases hfp : find_preemptable_appointment db department urgency
              (now + cfg.urgency_windows_minutes urgency) with
          | none =>
            simp only [hfp] at hok
            simp only [Except.ok.injEq, Prod.mk.injEq] at hok
            rw [← hok.2] at hstat
            simp at hstat
          | some cand =>
            simp only [hfp] at hok
            cases hfn : find_next_available_slot db department
                (now + cfg.urgency_windows_minutes urgency)
                (some (now + cfg.fallback_window_minutes)) with
            | none =>
              simp only [hfn] at hok
              simp only [Except.ok.injEq, Prod.mk.injEq] at hok
              rw [← hok.2] at hstat
              simp at hstat
            | some repl =>
              simp only [hfn] at hok
              cases hm : move_appointment_to_slot db cand.1.id repl.id
                  ("Preempted by higher-priority case; auto-rescheduled to " ++
                    toString repl.start_at) with
              | error e => simp only [hm] at hok; exact Except.noConfusion hok
              | ok db1 =>
                simp only [hm] at hok
                cases hg : get_slot db1 cand.1.slot_id with
                | none => simp only [hg] at hok; exact Except.noConfusion hok
                | some ps =>
                  simp only [hg] at hok
                  cases hc2 : create_appointment db1 pid tev urgency department
                      ps.provider ps.id (note ++ " | preemption applied")
                      (some cand.1.id) with
                  | error e => simp only [hc2] at hok; exact Except.noConfusion hok
                  | ok p =>
                    obtain ⟨db2, aid⟩ := p
                    simp only [hc2] at hok
                    simp only [Except.ok.injEq, Prod.mk.injEq] at hok
                    rw [← hok.2] at hstat
                    simp at hstat
  · intro hd f hf
    obtain ⟨hmem, hdept, hav, hge, hle, hmin⟩ := find_next_available_slot_some hf
    have hlt : now + cfg.urgency_windows_minutes urgency < f.start_at := by
      rcases eq_or_lt_of_le hge with heq | hlt
      · exfalso
        have hex : ∃ s, find_available_slot db department now
            (now + cfg.urgency_windows_minutes urgency) = some s :=
          find_available_slot_exists ⟨f, hmem, hdept, hav, by omega, by omega⟩
        obtain ⟨s, hs⟩ := hex
        rw [hd] at hs
        exact Option.noConfusion hs
      · exact hlt
    exact ⟨hmem, hdept, hav, hlt, hle, fun t ht h1 h2 h3 h4 =>
      hmin t ht h1 h2 (le_of_lt h3) h4⟩
  · intro hd hsr f hf
    obtain ⟨hmem, hdept, hav, _, _, _⟩ := find_next_available_slot_some hf
    have hc := create_appointment_ok hW.slot_ids_nodup hmem hav pid tev urgency
      department f.provider (note ++ " | booked outside ideal urgency window") none
    exact ⟨_, by simp only [book, hd]; rw [if_pos hsr]; simp only [hf, hc]; rfl⟩
  · intro hd hsr hfn
    simp only [book, hd]
    rw [if_pos hsr]
    simp only [hfn]

/-- Witness for `fallback_window_step`: a ROUTINE case against a department
with no AVAILABLE slot at all escalates with the fallback-window note. -/
theorem fallback_window_step_witness :
    book defaultConfig guardDB 0 10 20 Urgency.ROUTINE "Cardiology" "x" true =
      Except.ok (guardDB,
        { status := "ESCALATED",
          note := "No available slots found within fallback window." }) :=
  (fallback_window_step defaultConfig guardDB 0 10 20 Urgency.ROUTINE
      "Cardiology" "x" true
      ⟨by decide, by decide, by decide, by decide, by decide⟩).2.2.2
    rfl (Or.inr rfl) rfl

/-! ## C5: preemption candidate selection -/

theorem key_le_refl (x : Nat × Nat) : key_le x x = true := by
  simp [key_le]

theorem key_le_trans {x y z : Nat × Nat} (h1 : key_le x y = true)
    (h2 : key_le y z = true) : key_le x z = true := by
  simp only [key_le, Bool.or_eq_true, Bool.and_eq_true, beq_iff_eq,
    decide_eq_true_eq] at h1 h2 ⊢
  omega

theorem key_le_of_not {x y : Nat × Nat} (h : ¬ key_le x y = true) :
    key_le y x = true := by
  simp only [key_le, Bool.or_eq_true, Bool.and_eq_true, beq_iff_eq,
    decide_eq_true_eq] at h ⊢
  omega

theorem best_candidate_none {l : List (Appointment × Slot)} :
    best_candidate l = none ↔ l = [] := by
  cases l with
  | nil => simp [best_candidate]
  | cons a rest =>
    simp only [best_candidate]
    cases h : best_candidate rest with
    | none => simp
    | some u =>
      by_cases hle : key_le (preempt_key a) (preempt_key u) = true <;> simp [hle]

theorem best_candidate_mem : ∀ {l : List (Appointment × Slot)}
    {c : Appointment × Slot}, best_candidate l = some c → c ∈ l := by
  intro l
  induction l with
  | nil => intro c h; simp [best_candidate] at h
  | cons a rest ih =>
    intro c h
    simp only [best_candidate] at h
    cases hrest : best_candidate rest with
    | none =>
      simp only [hrest] at h
      simp at h
      simp [h]
    | some u =>
      simp only [hrest] at h
      by_cases hle : key_le (preempt_key a) (preempt_key u) = true
      · simp [hle] at h
        simp [h]
      · simp [hle] at h
        subst h
        exact List.mem_cons_of_mem _ (ih hrest)

theorem best_candidate_min : ∀ {l : List (Appointment × Slot)}
    {c : Appointment × Slot}, best_candidate l = some c →
    ∀ d ∈ l, key_le (preempt_key c) (preempt_key d) = true := by
  intro l
  induction l with
  | nil => intro c h; simp [best_candidate] at h
  | cons a rest ih =>
    intro c h d hd
    simp only [best_candidate] at h
    cases hrest : best_candidate rest with
    | none =>
      simp only [hrest] at h
      have hr : rest = [] := best_candidate_none.mp hrest
      subst hr
      simp at h hd
      subst h
      subst hd
      exact key_le_refl _
    | some u =>
      simp only [hrest] at h
      have hmin := ih hrest
      rcases List.mem_cons.mp hd with heq | hmem
      · subst heq
        by_cases hle : key_le (preempt_key d) (preempt_key u) = true
        · simp [hle] at h; subst h; exact key_le_refl _
        · simp [hle] at h; subst h; exact key_le_of_not hle
      · by_cases hle : key_le (preempt_key a) (preempt_key u) = true
        · simp [hle] at h; subst h; exact key_le_trans hle (hmin d hmem)
        · simp [hle] at h; subst h; exact hmin d hmem

/-- Membership characterization of the preemption candidate rows. -/
theorem preempt_candidates_mem {db : DB} {dept : String} {u : Urgency}
    {wEnd : Nat} {c : Appointment × Slot} :
    c ∈ preempt_candidates db dept u wEnd ↔
      c.1 ∈ db.appointments ∧ c.1.status = "BOOKED" ∧ c.1.department = dept ∧
      get_slot db c.1.slot_id = some c.2 ∧ c.2.start_at ≤ wEnd ∧
      urgency_rank c.1.urgency < urgency_rank u := by
  unfold preempt_candidates
  rw [List.mem_filterMap]
  constructor
  · rintro ⟨a, ha, hfa⟩
    by_cases hb : (a.status == "BOOKED" && a.department == dept) = true
    · rw [if_pos hb] at hfa
      simp only [Bool.and_eq_true, beq_iff_eq] at hb
      cases hg : get_slot db a.slot_id with
      | none => simp only [hg] at hfa; exact Option.noConfusion hfa
      | some s =>
        simp only [hg] at hfa
        by_cases hw : (decide (s.start_at ≤ wEnd) &&
            decide (urgency_rank a.urgency < urgency_rank u)) = true
        · rw [if_pos hw] at hfa
          simp only [Bool.and_eq_true, decide_eq_true_eq] at hw
          simp only [Option.some.injEq] at hfa
          subst hfa
          exact ⟨ha, hb.1, hb.2, hg, hw.1, hw.2⟩
        · rw [if_neg hw] at hfa; exact Option.noConfusion hfa
    · rw [if_neg hb] at hfa; exact Option.noConfusion hfa
  · rintro ⟨ha, hst, hdept, hg, hw, hr⟩
    refine ⟨c.1, ha, ?_⟩
    simp [hst, hdept, hg, hw, hr]

/-- **C5** — Preemption candidate selection.  A PREEMPTED outcome of `book`
happens only for URGENT or EMERGENCY urgencies with preemption enabled and
allowed; a candidate returned by `find_preemptable_appointment` is a BOOKED
appointment of the department whose slot starts on or before `windowEnd`
with urgency strictly lower-ranked than the incoming case, minimal first by
urgency rank and then by slot start time among all such appointments; and
when no candidate exists at the preemption step, `book` returns ESCALATED
with the no-lower-priority note. -/
theorem preemption_candidate_selection (cfg : TriageConfig) (db : DB)
    (now pid tev : Nat) (urgency : Urgency) (department note : String)
    (allow_preemption : Bool) :
    (∀ db' r, book cfg db now pid tev urgency department note allow_preemption =
        Except.ok (db', r) → r.status = "PREEMPTED" →
      (urgency = Urgency.URGENT ∨ urgency = Urgency.EMERGENCY) ∧
      allow_preemption = true ∧ cfg.preemption_enabled = true) ∧
    (∀ c, find_preemptable_appointment db department urgency
        (now + cfg.urgency_windows_minutes urgency) = some c →
      c.1 ∈ db.appointments ∧ c.1.status = "BOOKED" ∧
      c.1.department = department ∧ get_slot db c.1.slot_id = some c.2 ∧
      c.2.start_at ≤ now + cfg.urgency_windows_minutes urgency ∧
      urgency_rank c.1.urgency < urgency_rank urgency ∧
      (∀ a ∈ db.appointments, ∀ s, a.status = "BOOKED" →
        a.department = department → get_slot db a.slot_id = some s →
        s.start_at ≤ now + cfg.urgency_windows_minutes urgency →
        urgency_rank a.urgency < urgency_rank urgency →
        urgency_rank c.1.urgency < urgency_rank a.urgency ∨
        (urgency_rank c.1.urgency = urgency_rank a.urgency ∧
          c.2.start_at ≤ s.start_at))) ∧
    (find_available_slot db department now
        (now + cfg.urgency_windows_minutes urgency) = none →
      (urgency = Urgency.URGENT ∨ urgency = Urgency.EMERGENCY) →
      allow_preemption = true → cfg.preemption_enabled = true →
      find_preemptable_appointment db department urgency
        (now + cfg.urgency_windows_minutes urgency) = none →
      book cfg db now pid tev urgency department note allow_preemption =
        Except.ok (db,
          { status := "ESCALATED",
            note := "No lower-priority appointment available for preemption." })) := by
  refine ⟨?_, ?_, ?_⟩
  · intro db' r hok hstat
    simp only [book] at hok
    cases hfa : find_available_slot db department now
        (now + cfg.urgency_windows_minutes urgency) with
    | some slot =>
      simp only [hfa] at hok
      exfalso
      cases hc : create_appointment db pid tev urgency department slot.provider
          slot.id note none with
      | error e => simp only [hc] at hok; exact Except.noConfusion hok
      | ok p =>
        obtain ⟨db1, aid⟩ := p
        simp only [hc] at hok
        simp only [Except.ok.injEq, Prod.mk.injEq] at hok
        rw [← hok.2] at hstat
        simp at hstat
    | none =>
      simp only [hfa] at hok
      by_cases hsr : urgency = Urgency.SOON ∨ urgency = Urgency.ROUTINE
      · exfalso
        rw [if_pos hsr] at hok
        cases hfn : find_next_available_slot db department
            (now + cfg.urgency_windows_minutes urgency)
            (some (now + cfg.fallback_window_minutes)) with
        | some f =>
          simp only [hfn] at hok
          cases hc : create_appointment db pid tev urgency department f.provider
              f.id (note ++ " | booked outside ideal urgency window") none with
          | error e => simp only [hc] at hok; exact Except.noConfusion hok
          | ok p =>
            obtain ⟨db1, aid⟩ := p
            simp only [hc] at hok
            simp only [Except.ok.injEq, Prod.mk.injEq] at hok
            rw [← hok.2] at hstat
            simp at hstat
        | none =>
          simp only [hfn] at hok
          simp only [Except.ok.injEq, Prod.mk.injEq] at hok
          rw [← hok.2] at hstat
          simp at hstat
      · have hu : urgency = Urgency.URGENT ∨ urgency = Urgency.EMERGENCY := by
          cases urgency <;> simp_all
        rw [if_neg hsr] at hok
        by_cases hp : ¬(allow_preemption = true ∧ cfg.preemption_enabled = true)
        · exfalso
          rw [if_pos hp] at hok
          simp only [Except.ok.injEq, Prod.mk.injEq] at hok
          rw [← hok.2] at hstat
          simp at hstat
        · rw [not_not] at hp
          exact ⟨hu, hp⟩
  · intro c hc
    unfold find_preemptable_appointment at hc
    have hmem := preempt_candidates_mem.mp (best_candidate_mem hc)
    have hmin := best_candidate_min hc
    obtain ⟨h1, h2, h3, h4, h5, h6⟩ := hmem
    refine ⟨h1, h2, h3, h4, h5, h6, ?_⟩
    intro a ha s hst hdept hg hw hr
    have hpair : (a, s) ∈ preempt_candidates db department urgency
        (now + cfg.urgency_windows_minutes urgency) :=
      preempt_candidates_mem.mpr ⟨ha, hst, hdept, hg, hw, hr⟩
    have := hmin (a, s) hpair
    simp only [key_le, preempt_key, Bool.or_eq_true, Bool.and_eq_true,
      beq_iff_eq, decide_eq_true_eq] at this
    omega
  · intro hd hu ha he hfp
    have hnotsr : ¬(urgency = Urgency.SOON ∨ urgency = Urgency.ROUTINE) := by
      rcases hu with h | h <;> subst h <;> simp
    simp [book, hd, hfp, hnotsr, ha, he]

/-- Witness for `preemption_candidate_selection`: in `guardDB` the ROUTINE
appointment is the selected preemption candidate for an URGENT case. -/
theorem preemption_candidate_selection_witness :
    (routineAppt, bookedSlot).1 ∈ guardDB.appointments ∧
    (routineAppt, bookedSlot).1.status = "BOOKED" ∧
    (routineAppt, bookedSlot).1.department = "Cardiology" ∧
    get_slot guardDB (routineAppt, bookedSlot).1.slot_id =
      some (routineAppt, bookedSlot).2 ∧
    (routineAppt, bookedSlot).2.start_at ≤
      0 + defaultConfig.urgency_windows_minutes Urgency.URGENT ∧
    urgency_rank (routineAppt, bookedSlot).1.urgency <
      urgency_rank Urgency.URGENT ∧
    (∀ a ∈ guardDB.appointments, ∀ s, a.status = "BOOKED" →
      a.department = "Cardiology" → get_slot guardDB a.slot_id = some s →
      s.start_at ≤ 0 + defaultConfig.urgency_windows_minutes Urgency.URGENT →
      urgency_rank a.urgency < urgency_rank Urgency.URGENT →
      urgency_rank (routineAppt, bookedSlot).1.urgency < urgency_rank a.urgency ∨
      (urgency_rank (routineAppt, bookedSlot).1.urgency = urgency_rank a.urgency ∧
        (routineAppt, bookedSlot).2.start_at ≤ s.start_at)) :=
  (preemption_candidate_selection defaultConfig guardDB 0 10 20 Urgency.URGENT
      "Cardiology" "x" true).2.1 (routineAppt, bookedSlot) rfl

/-! ## C3: preemption slot assignment -/

/-- With pairwise-distinct slot ids, the lookup by a member's id returns
that member. -/
theorem find?_slot_eq : ∀ {l : List Slot}, (l.map Slot.id).Nodup →
    ∀ {s : Slot}, s ∈ l → l.find? (fun t => t.id == s.id) = some s := by
  intro l
  induction l with
  | nil => intro _ s hs; simp at hs
  | cons b rest ih =>
    intro hnodup s hs
    rw [List.map_cons, List.nodup_cons] at hnodup
    by_cases hb : (b.id == s.id) = true
    · have hbs : b = s := by
        rcases List.mem_cons.mp hs with heq | hmem
        · exact heq.symm
        · exfalso
          exact hnodup.1 (by
            rw [beq_iff_eq] at hb
            exact hb ▸ List.mem_map_of_mem _ hmem)
      simp only [List.find?, hb]
      rw [hbs]
    · have hmem : s ∈ rest := by
        rcases List.mem_cons.mp hs with heq | hmem
        · exact absurd (by subst heq; simp : (b.id == s.id) = true) hb
        · exact hmem
      have hb' : (b.id == s.id) = false := by simpa using hb
      simp only [List.find?, hb']
      exact ih hnodup.2 hmem

/-- With pairwise-distinct appointment ids, the `BOOKED`-appointment lookup
of `move_appointment_to_slot` returns the member with that id. -/
theorem find?_booked_eq : ∀ {l : List Appointment},
    (l.map Appointment.id).Nodup → ∀ {a : Appointment}, a ∈ l →
    a.status = "BOOKED" →
    l.find? (fun x => x.id == a.id && x.status == "BOOKED") = some a := by
  intro l
  induction l with
  | nil => intro _ a ha; simp at ha
  | cons b rest ih =>
    intro hnodup a ha hstat
    rw [List.map_cons, List.nodup_cons] at hnodup
    by_cases hb : (b.id == a.id) = true
    · have hbs : b = a := by
        rcases List.mem_cons.mp ha with heq | hmem
        · exact heq.symm
        · exfalso
          exact hnodup.1 (by
            rw [beq_iff_eq] at hb
            exact hb ▸ List.mem_map_of_mem _ hmem)
      subst hbs
      simp only [List.find?, hstat]
      simp
    · have hmem : a ∈ rest := by
        rcases List.mem_cons.mp ha with heq | hmem
        · exact absurd (by subst heq; simp : (b.id == a.id) = true) hb
        · exact hmem
      have hb' : (b.id == a.id && b.status == "BOOKED") = false := by
        simp [by simpa using hb]
      simp only [List.find?, hb']
      exact ih hnodup.2 hmem hstat

/-- Find-by-id commutes with an id-preserving row update. -/
theorem map_find?_id (h : Slot → Slot) (hid : ∀ t, (h t).id = t.id) :
    ∀ (l : List Slot) (x : Nat),
    (l.map h).find? (fun t => t.id == x) = (l.find? (fun t => t.id == x)).map h := by
  intro l
  induction l with
  | nil => intro x; simp
  | cons b rest ih =>
    intro x
    rw [List.map_cons]
    by_cases hb : (b.id == x) = true
    · have hb2 : ((h b).id == x) = true := by rw [hid]; exact hb
      simp only [List.find?, hb, hb2]
      simp
    · have hb1 : (b.id == x) = false := by simpa using hb
      have hb2 : ((h b).id == x) = false := by rw [hid]; exact hb1
      simp only [List.find?, hb1, hb2]
      exact ih x

/-- Row updates preserve the id column, so the id list of the slots table is
unchanged by the two slot updates of a move. -/
theorem map_id_of_update (h : Slot → Slot) (hid : ∀ t, (h t).id = t.id)
    (l : List Slot) : (l.map h).map Slot.id = l.map Slot.id := by
  rw [List.map_map]
  exact List.map_congr_left (fun t _ => hid t)

/-- The success equation of `move_appointment_to_slot` for a `BOOKED`
member appointment and an `AVAILABLE` member target slot, under
pairwise-distinct ids. -/
theorem move_appointment_ok {db : DB}
    (hnodupA : (db.appointments.map Appointment.id).Nodup)
    (hnodupS : (db.slots.map Slot.id).Nodup)
    {a : Appointment} (ha : a ∈ db.appointments) (hstat : a.status = "BOOKED")
    {ns : Slot} (hns : ns ∈ db.slots) (hav : ns.status = SlotStatus.AVAILABLE)
    (note : String) :
    move_appointment_to_slot db a.id ns.id note =
      Except.ok { db with
        slots := (db.slots.map (fun t =>
          if t.id == a.slot_id then
            { t with status := SlotStatus.AVAILABLE, appointment_id := none }
          else t)).map (fun t =>
            if t.id == ns.id then
              { t with status := SlotStatus.BOOKED, appointment_id := some a.id }
            else t)
        appointments := db.appointments.map (fun x =>
          if x.id == a.id then
            { x with
                slot_id := ns.id
                provider := ns.provider
                note := strip_pipe_space (a.note ++ " | " ++ note) }
          else x)
        activity := db.activity ++
          [{ appointment_id := a.id, activity_type := "RESCHEDULED",
             details := [("old_slot_id", toString a.slot_id),
                         ("new_slot_id", toString ns.id), ("note", note)] }] } := by
  unfold move_appointment_to_slot
  simp only [find?_booked_eq hnodupA ha hstat, find?_slot_eq hnodupS hns, hav,
    eq_self_iff_true, if_true]

/-- **C3** — Preemption slot assignment.  For a successful preemption, the
displaced appointment ends up bound to the replacement slot found after
`windowEnd`, the newly created appointment ends up bound to the slot
originally held by the displaced appointment (never the reverse), and the
result's `preempted_appointment_id` is the displaced appointment's id. -/
theorem preemption_slot_assignment (cfg : TriageConfig) (db : DB)
    (now pid tev : Nat) (urgency : Urgency) (department note : String)
    (allow_preemption : Bool) (a : Appointment) (s repl : Slot)
    (hW : WellFormed db)
    (hd : find_available_slot db department now
      (now + cfg.urgency_windows_minutes urgency) = none)
    (hsr : ¬(urgency = Urgency.SOON ∨ urgency = Urgency.ROUTINE))
    (hallow : allow_preemption = true) (henabled : cfg.preemption_enabled = true)
    (hc : find_preemptable_appointment db department urgency
      (now + cfg.urgency_windows_minutes urgency) = some (a, s))
    (hfn : find_next_available_slot db department
      (now + cfg.urgency_windows_minutes urgency)
      (some (now + cfg.fallback_window_minutes)) = some repl) :
    ∃ db' r, book cfg db now pid tev urgency department note allow_preemption =
        Except.ok (db', r) ∧
      r.status = "PREEMPTED" ∧
      r.preempted_appointment_id = some a.id ∧
      r.appointment_id = some db.next_appointment_id ∧
      r.slot_id = some a.slot_id ∧
      (∀ row ∈ db'.appointments, row.id = a.id → row.slot_id = repl.id) ∧
      (∀ row ∈ db'.appointments, row.id = db.next_appointment_id →
        row.slot_id = a.slot_id) ∧
      (∃ row ∈ db'.appointments, row.id = a.id ∧ row.slot_id = repl.id) ∧
      (∃ row ∈ db'.appointments, row.id = db.next_appointment_id ∧
        row.slot_id = a.slot_id ∧
        row.preempted_from_appointment_id = some a.id) := by
  have hcand := preempt_candidates_mem.mp
    (best_candidate_mem (by unfold find_preemptable_appointment at hc; exact hc))
  obtain ⟨ha0, hstat0, hadept0, hg0, hwend0, hrank0⟩ := hcand
  have ha : a ∈ db.appointments := ha0
  have hstat : a.status = "BOOKED" := hstat0
  have hadept : a.department = department := hadept0
  have hg : get_slot db a.slot_id = some s := hg0
  have hrank : urgency_rank a.urgency < urgency_rank urgency := hrank0
  have hrepl := find_next_available_slot_some hfn
  obtain ⟨hrmem, hrdept, hrav, hrge, hrle, hrmin⟩ := hrepl
  have hg' : db.slots.find? (fun t => t.id == a.slot_id) = some s := hg
  have hsmem : s ∈ db.slots := List.mem_of_find?_eq_some hg'
  have hsid : s.id = a.slot_id := by
    have := List.find?_some hg'
    simpa using this
  have hrefpos : 0 < refCount db s.id := by
    rw [refCount, List.countP_pos_iff]
    exact ⟨a, ha, by simp [hstat, hsid]⟩
  have hsbooked : s.status = SlotStatus.BOOKED := by
    cases hss : s.status with
    | BOOKED => rfl
    | AVAILABLE =>
      exfalso
      have h0 := (hW.avail_free s hsmem hss).1
      omega
  have hsne : s.id ≠ repl.id := by
    intro heq
    have hse : s = repl :=
      List.inj_on_of_nodup_map hW.slot_ids_nodup hsmem hrmem heq
    rw [hse, hrav] at hsbooked
    cases hsbooked
  have hne2 : a.slot_id ≠ repl.id := by rw [← hsid]; exact hsne
  have hidf : ∀ t : Slot, ((fun t : Slot =>
      if t.id == a.slot_id then
        { t with status := SlotStatus.AVAILABLE, appointment_id := none }
      else t) t).id = t.id := by
    intro t
    by_cases h : (t.id == a.slot_id) = true <;> simp [h]
  have hidg : ∀ t : Slot, ((fun t : Slot =>
      if t.id == repl.id then
        { t with status := SlotStatus.BOOKED, appointment_id := some a.id }
      else t) t).id = t.id := by
    intro t
    by_cases h : (t.id == repl.id) = true <;> simp [h]
  have hmove := move_appointment_ok hW.appt_ids_nodup hW.slot_ids_nodup ha hstat
    hrmem hrav
    ("Preempted by higher-priority case; auto-rescheduled to " ++
      toString repl.start_at)
  have hget1 : get_slot { db with
      slots := (db.slots.map (fun t =>
        if t.id == a.slot_id then
          { t with status := SlotStatus.AVAILABLE, appointment_id := none }
        else t)).map (fun t =>
          if t.id == repl.id then
            { t with status := SlotStatus.BOOKED, appointment_id := some a.id }
          else t)
      appointments := db.appointments.map (fun x =>
        if x.id == a.id then
          { x with
              slot_id := repl.id
              provider := repl.provider
              note := strip_pipe_space (a.note ++ " | " ++
                ("Preempted by higher-priority case; auto-rescheduled to " ++
                  toString repl.start_at)) }
        else x)
      activity := db.activity ++
        [{ appointment_id := a.id, activity_type := "RESCHEDULED",
           details := [("old_slot_id", toString a.slot_id),
                       ("new_slot_id", toString repl.id),
                       ("note", "Preempted by higher-priority case; auto-rescheduled to " ++
                         toString repl.start_at)] }] } a.slot_id =
      some { s with status := SlotStatus.AVAILABLE, appointment_id := none } := by
    unfold get_slot
    simp only []
    rw [map_find?_id _ hidg, map_find?_id _ hidf, ← hsid,
      find?_slot_eq hW.slot_ids_nodup hsmem]
    simp [hsid, hne2]
  have hnodup1 : (((db.slots.map (fun t =>
      if t.id == a.slot_id then
        { t with status := SlotStatus.AVAILABLE, appointment_id := none }
      else t)).map (fun t =>
        if t.id == repl.id then
          { t with status := SlotStatus.BOOKED, appointment_id := some a.id }
        else t)).map Slot.id).Nodup := by
    rw [map_id_of_update _ hidg, map_id_of_update _ hidf]
    exact hW.slot_ids_nodup
  have hpmem : ({ s with status := SlotStatus.AVAILABLE, appointment_id := none } : Slot) ∈
      (db.slots.map (fun t =>
        if t.id == a.slot_id then
          { t with status := SlotStatus.AVAILABLE, appointment_id := none }
        else t)).map (fun t =>
          if t.id == repl.id then
            { t with status := SlotStatus.BOOKED, appointment_id := some a.id }
          else t) := by
    rw [List.map_map]
    refine List.mem_map.mpr ⟨s, hsmem, ?_⟩
    simp [Function.comp, hsid, hsne, hne2]
  have hcount0 := countP_avail_one hnodup1 hpmem rfl
  have hcount : ((db.slots.map (fun t =>
      if t.id == a.slot_id then
        { t with status := SlotStatus.AVAILABLE, appointment_id := none }
      else t)).map (fun t =>
        if t.id == repl.id then
          { t with status := SlotStatus.BOOKED, appointment_id := some a.id }
        else t)).countP
      (fun t => t.id == s.id && t.status == SlotStatus.AVAILABLE) = 1 := hcount0
  refine ⟨_, _,
    (by simp only [book, hd]
        rw [if_neg hsr, if_neg (not_not_intro ⟨hallow, henabled⟩)]
        simp only [hc, hfn, hmove, hget1]
        simp only [create_appointment]
        rw [if_pos hcount]
        try rfl),
    ?_, ?_, ?_, ?_, ?_, ?_, ?_, ?_⟩
  · rfl
  · rfl
  · rfl
  · simp [hsid]
  · intro row hrow hid
    simp only [log_appointment_activity] at hrow
    rcases List.mem_append.mp hrow with hm | hm
    · obtain ⟨x, hx, hxe⟩ := List.mem_map.mp hm
      by_cases hcase : (x.id == a.id) = true
      · rw [← hxe]
        simp [hcase]
      · exfalso
        rw [← hxe] at hid
        simp [hcase] at hid
        exact absurd hid (by simpa using hcase)
    · exfalso
      simp only [List.mem_singleton] at hm
      subst hm
      simp only [] at hid
      have := hW.appt_ids_lt a ha
      omega
  · intro row hrow hid
    simp only [log_appointment_activity] at hrow
    rcases List.mem_append.mp hrow with hm | hm
    · exfalso
      obtain ⟨x, hx, hxe⟩ := List.mem_map.mp hm
      have hlt := hW.appt_ids_lt x hx
      rw [← hxe] at hid
      by_cases hcase : (x.id == a.id) = true <;> simp [hcase] at hid <;> omega
    · simp only [List.mem_singleton] at hm
      subst hm
      exact hsid
  · refine ⟨_, List.mem_append_left _ (List.mem_map_of_mem _ ha), ?_, ?_⟩
    · simp
    · simp
  · refine ⟨_, List.mem_append_right _ (List.mem_singleton.mpr rfl), rfl, ?_, rfl⟩
    exact hsid

/-- The Scenario B replacement slot: AVAILABLE "Cardiology", 3 days out. -/
def replacementSlot : Slot :=
  { id := 2, department := "Cardiology", provider := "Dr. Park",
    start_at := 4320, end_at := 4365, status := SlotStatus.AVAILABLE,
    appointment_id := none }

/-- The Scenario B state: one BOOKED ROUTINE appointment 1h out and one
AVAILABLE slot 3 days out, both in "Cardiology". -/
def preemptDB : DB :=
  { slots := [bookedSlot, replacementSlot], appointments := [routineAppt],
    activity := [], queue := [], next_appointment_id := 2 }

/-- Witness for `preemption_slot_assignment` on the Scenario B state. -/
theorem preemption_slot_assignment_witness :
    ∃ db' r, book defaultConfig preemptDB 0 10 20 Urgency.URGENT "Cardiology"
        "urgent case" true = Except.ok (db', r) ∧
      r.status = "PREEMPTED" ∧ r.preempted_appointment_id = some 1 := by
  obtain ⟨db', r, h1, h2, h3, -⟩ :=
    preemption_slot_assignment defaultConfig preemptDB 0 10 20 Urgency.URGENT
      "Cardiology" "urgent case" true routineAppt bookedSlot replacementSlot
      ⟨by decide, by decide, by decide, by decide, by decide⟩ rfl (by decide)
      rfl rfl rfl rfl
  exact ⟨db', r, h1, h2, h3⟩

/-! ## C10: implicit queue ordering -/

/-- **C10** — Queue ordering.  `list_queue` returns rows of the requested
status ordered by the `CASE` priority rank descending — EMERGENCY 4,
URGENT 3, SOON 2, everything else (ROUTINE included) 1 — breaking ties by
`created_at` ascending, truncated to the given limit; every returned row has
the requested status, and when the matching rows fit in the limit all of
them are returned. -/
theorem list_queue_ordering (db : DB) (status : String) (limit : Nat) :
    List.Sorted queue_le (list_queue db status limit) ∧
    (list_queue db status limit).length =
      min limit ((db.queue.filter (fun q => q.status == status)).length) ∧
    (∀ q ∈ list_queue db status limit, q ∈ db.queue ∧ q.status = status) ∧
    ((db.queue.filter (fun q => q.status == status)).length ≤ limit →
      ∀ q ∈ db.queue, q.status = status → q ∈ list_queue db status limit) ∧
    priority_rank "EMERGENCY" = 4 ∧ priority_rank "URGENT" = 3 ∧
    priority_rank "SOON" = 2 ∧ priority_rank "ROUTINE" = 1 ∧
    (∀ p, p ≠ "EMERGENCY" → p ≠ "URGENT" → p ≠ "SOON" → priority_rank p = 1) := by
  refine ⟨?_, ?_, ?_, ?_, rfl, rfl, rfl, rfl, ?_⟩
  · exact List.Pairwise.sublist (List.take_sublist _ _)
      (List.sorted_insertionSort queue_le _)
  · rw [list_queue, List.length_take, List.length_insertionSort]
  · intro q hq
    have hmem : q ∈ (db.queue.filter
        (fun q => q.status == status)).insertionSort queue_le :=
      (List.take_sublist _ _).mem hq
    rw [List.mem_insertionSort] at hmem
    rw [List.mem_filter] at hmem
    exact ⟨hmem.1, by simpa using hmem.2⟩
  · intro hlen q hq hstatus
    have hmem : q ∈ (db.queue.filter
        (fun q => q.status == status)).insertionSort queue_le := by
      rw [List.mem_insertionSort, List.mem_filter]
      exact ⟨hq, by simp [hstatus]⟩
    rw [list_queue, List.take_of_length_le]
    · exact hmem
    · rw [List.length_insertionSort]
      exact hlen
  · intro p h1 h2 h3
    simp [priority_rank, h1, h2, h3]

/-- Queue rows exercising the ordering: an EMERGENCY row created late, a
ROUTINE row, an unknown-priority row created early, and a resolved row. -/
def queueDB : DB :=
  { slots := [], appointments := [], activity := [],
    queue := [
      { id := 1, triage_event_id := 1, status := "PENDING", reason := "r",
        priority := "ROUTINE", created_at := 5 },
      { id := 2, triage_event_id := 2, status := "PENDING", reason := "r",
        priority := "EMERGENCY", created_at := 9 },
      { id := 3, triage_event_id := 3, status := "PENDING", reason := "r",
        priority := "WHATEVER", created_at := 1 },
      { id := 4, triage_event_id := 4, status := "BOOKED", reason := "r",
        priority := "URGENT", created_at := 0 }],
    next_appointment_id := 1 }

/-- Witness for `list_queue_ordering`: on `queueDB` every PENDING row is
kept when the limit is large enough. -/
theorem list_queue_ordering_witness :
    ∀ q ∈ queueDB.queue, q.status = "PENDING" →
      q ∈ list_queue queueDB "PENDING" 10 :=
  (list_queue_ordering queueDB "PENDING" 10).2.2.2.1 (by decide)

/-! ## C1: the slot-exclusivity invariant is preserved by every completed
booking operation -/

/-- Appointment-row updates preserve the id column. -/
theorem map_aid_of_update (k : Appointment → Appointment)
    (hid : ∀ x, (k x).id = x.id) (l : List Appointment) :
    (l.map k).map Appointment.id = l.map Appointment.id := by
  rw [List.map_map]
  exact List.map_congr_left (fun x _ => hid x)

/-- A completed `create_appointment` call preserves `WellFormed`. -/
theorem create_preserves_wf {db : DB} (hW : WellFormed db)
    (pid tev : Nat) (u : Urgency) (dept prov : String) (sid : Nat)
    (note : String) (pfa : Option Nat) {db' : DB} {aid : Nat}
    (hok : create_appointment db pid tev u dept prov sid note pfa =
      Except.ok (db', aid)) : WellFormed db' := by
  unfold create_appointment at hok
  by_cases hcount : db.slots.countP
      (fun t => t.id == sid && t.status == SlotStatus.AVAILABLE) = 1
  swap
  · rw [if_neg hcount] at hok
    exact Except.noConfusion hok
  rw [if_pos hcount] at hok
  simp only [Except.ok.injEq, Prod.mk.injEq] at hok
  obtain ⟨hdb, haid⟩ := hok
  subst hdb
  have hpos : 0 < db.slots.countP
      (fun t => t.id == sid && t.status == SlotStatus.AVAILABLE) := by omega
  rw [List.countP_pos_iff] at hpos
  obtain ⟨w, hw, hpw⟩ := hpos
  simp only [Bool.and_eq_true, beq_iff_eq] at hpw
  have hidf : ∀ t : Slot, ((fun t : Slot =>
      if t.id == sid && t.status == SlotStatus.AVAILABLE then
        { t with status := SlotStatus.BOOKED }
      else t) t).id = t.id := by
    intro t
    by_cases h : (t.id == sid && t.status == SlotStatus.AVAILABLE) = true <;>
      simp [h]
  have hidg : ∀ t : Slot, ((fun t : Slot =>
      if t.id == sid then
        { t with appointment_id := some db.next_appointment_id }
      else t) t).id = t.id := by
    intro t
    by_cases h : (t.id == sid) = true <;> simp [h]
  have hrc : ∀ x, refCount { db with
      slots := (db.slots.map (fun t =>
        if t.id == sid && t.status == SlotStatus.AVAILABLE then
          { t with status := SlotStatus.BOOKED }
        else t)).map (fun t =>
          if t.id == sid then
            { t with appointment_id := some db.next_appointment_id }
          else t)
      appointments := db.appointments ++
        [{ id := db.next_appointment_id, patient_id := pid,
           triage_event_id := tev, urgency := u, department := dept,
           provider := prov, slot_id := sid, status := "BOOKED", note := note,
           preempted_from_appointment_id := pfa }]
      activity := db.activity ++
        [{ appointment_id := db.next_appointment_id, activity_type := "BOOKED",
           details := [("slot_id", toString sid), ("note", note),
                       ("urgency", urgencyStr u)] }]
      next_appointment_id := db.next_appointment_id + 1 } x =
      refCount db x + (if sid = x then 1 else 0) := by
    intro x
    by_cases hx : sid = x <;>
      simp [refCount, List.countP_append, List.countP_cons, hx]
  constructor
  · simp only []
    rw [map_id_of_update _ hidg, map_id_of_update _ hidf]
    exact hW.slot_ids_nodup
  · simp only [List.map_append, List.map_cons, List.map_nil]
    rw [List.nodup_append]
    refine ⟨hW.appt_ids_nodup, List.nodup_singleton _, ?_⟩
    intro y hy hy2
    simp only [List.mem_singleton] at hy2
    obtain ⟨x, hx, hxe⟩ := List.mem_map.mp hy
    have := hW.appt_ids_lt x hx
    subst hy2
    simp only [] at this hxe
    omega
  · intro x hx
    rcases List.mem_append.mp hx with hm | hm
    · have := hW.appt_ids_lt x hm
      simp only []
      omega
    · simp only [List.mem_singleton] at hm
      subst hm
      simp only []
      omega
  · intro s' hs' hbooked
    rw [hrc]
    simp only [List.map_map] at hs'
    obtain ⟨t, ht, hte⟩ := List.mem_map.mp hs'
    by_cases hts : t.id = sid
    · have htw : t = w :=
        List.inj_on_of_nodup_map hW.slot_ids_nodup ht hw (by rw [hts, hpw.1])
      have htav : t.status = SlotStatus.AVAILABLE := by rw [htw]; exact hpw.2
      have h0 : refCount db sid = 0 := by
        rw [← hts]
        exact (hW.avail_free t ht htav).1
      have hsid' : s'.id = sid := by
        rw [← hte, Function.comp_apply, hidg, hidf, hts]
      rw [hsid', if_pos rfl, h0]
    · have hte2 : s' = t := by
        rw [← hte]
        simp [Function.comp, hts]
      rw [hte2] at hbooked ⊢
      rw [if_neg (fun h => hts h.symm)]
      simp only [Nat.add_zero]
      exact hW.booked_unique t ht hbooked
  · intro s' hs' havail
    rw [hrc]
    simp only [List.map_map] at hs'
    obtain ⟨t, ht, hte⟩ := List.mem_map.mp hs'
    by_cases hts : t.id = sid
    · exfalso
      have htw : t = w :=
        List.inj_on_of_nodup_map hW.slot_ids_nodup ht hw (by rw [hts, hpw.1])
      have htav : t.status = SlotStatus.AVAILABLE := by rw [htw]; exact hpw.2
      have hb : s'.status = SlotStatus.BOOKED := by
        rw [← hte]
        simp [Function.comp, hts, htav]
      rw [havail] at hb
      cases hb
    · have hte2 : s' = t := by
        rw [← hte]
        simp [Function.comp, hts]
      rw [hte2] at havail ⊢
      rw [if_neg (fun h => hts h.symm)]
      simp only [Nat.add_zero]
      exact hW.avail_free t ht havail

/-- A completed `move_appointment_to_slot` call preserves `WellFormed`. -/
theorem move_preserves_wf {db : DB} (hW : WellFormed db)
    (appointment_id new_slot_id : Nat) (note : String) {db' : DB}
    (hok : move_appointment_to_slot db appointment_id new_slot_id note =
      Except.ok db') : WellFormed db' := by
  unfold move_appointment_to_slot at hok
  cases hfa : db.appointments.find?
      (fun x => x.id == appointment_id && x.status == "BOOKED") with
  | none => simp only [hfa] at hok; exact Except.noConfusion hok
  | some appt =>
  simp only [hfa] at hok
  cases hfs : db.slots.find? (fun t => t.id == new_slot_id) with
  | none => simp only [hfs] at hok; exact Except.noConfusion hok
  | some ns =>
  simp only [hfs] at hok
  by_cases hav : ns.status = SlotStatus.AVAILABLE
  swap
  · rw [if_neg hav] at hok
    exact Except.noConfusion hok
  rw [if_pos hav] at hok
  simp only [Except.ok.injEq] at hok
  subst hok
  have hamem : appt ∈ db.appointments := List.mem_of_find?_eq_some hfa
  have hapred := List.find?_some hfa
  simp only [Bool.and_eq_true, beq_iff_eq] at hapred
  have hnsmem : ns ∈ db.slots := List.mem_of_find?_eq_some hfs
  have hnsid : ns.id = new_slot_id := by simpa using List.find?_some hfs
  have hrefpos : 0 < refCount db appt.slot_id := by
    rw [refCount, List.countP_pos_iff]
    exact ⟨appt, hamem, by simp [hapred.2]⟩
  have hosne : appt.slot_id ≠ new_slot_id := by
    intro heq
    have h0 : refCount db ns.id = 0 := (hW.avail_free ns hnsmem hav).1
    rw [hnsid, ← heq] at h0
    omega
  obtain ⟨l1, l2, hsplit⟩ := List.append_of_mem hamem
  have hnodup := hW.appt_ids_nodup
  rw [hsplit, List.map_append, List.map_cons, List.nodup_append] at hnodup
  obtain ⟨hnd1, hnd2, hdisj⟩ := hnodup
  rw [List.nodup_cons] at hnd2
  have hn1 : ∀ y ∈ l1, y.id ≠ appointment_id := by
    intro y hy heq
    exact hdisj (List.mem_map_of_mem _ hy)
      (by rw [heq, ← hapred.1]; exact List.mem_cons_self _ _)
  have hn2 : ∀ y ∈ l2, y.id ≠ appointment_id := by
    intro y hy heq
    exact hnd2.1 (by rw [hapred.1, ← heq]; exact List.mem_map_of_mem _ hy)
  have hl1 : l1.map (fun x =>
      if x.id == appointment_id then
        { x with
            slot_id := new_slot_id
            provider := ns.provider
            note := strip_pipe_space (appt.note ++ " | " ++ note) }
      else x) = l1 := by
    conv_rhs => rw [← List.map_id l1]
    exact List.map_congr_left (fun y hy => by simp [hn1 y hy])
  have hl2 : l2.map (fun x =>
      if x.id == appointment_id then
        { x with
            slot_id := new_slot_id
            provider := ns.provider
            note := strip_pipe_space (appt.note ++ " | " ++ note) }
      else x) = l2 := by
    conv_rhs => rw [← List.map_id l2]
    exact List.map_congr_left (fun y hy => by simp [hn2 y hy])
  have hmapk : db.appointments.map (fun x =>
      if x.id == appointment_id then
        { x with
            slot_id := new_slot_id
            provider := ns.provider
            note := strip_pipe_space (appt.note ++ " | " ++ note) }
      else x) = l1 ++ ({ appt with
        slot_id := new_slot_id
        provider := ns.provider
        note := strip_pipe_space (appt.note ++ " | " ++ note) } :: l2) := by
    rw [hsplit, List.map_append, List.map_cons, hl1, hl2]
    congr 2
    simp [hapred.1]
  have hidk : ∀ x : Appointment, ((fun x : Appointment =>
      if x.id == appointment_id then
        { x with
            slot_id := new_slot_id
            provider := ns.provider
            note := strip_pipe_space (appt.note ++ " | " ++ note) }
      else x) x).id = x.id := by
    intro x
    by_cases h : (x.id == appointment_id) = true <;> simp [h]
  have hidf : ∀ t : Slot, ((fun t : Slot =>
      if t.id == appt.slot_id then
        { t with status := SlotStatus.AVAILABLE, appointment_id := none }
      else t) t).id = t.id := by
    intro t
    by_cases h : (t.id == appt.slot_id) = true <;> simp [h]
  have hidg : ∀ t : Slot, ((fun t : Slot =>
      if t.id == new_slot_id then
        { t with status := SlotStatus.BOOKED, appointment_id := some appointment_id }
      else t) t).id = t.id := by
    intro t
    by_cases h : (t.id == new_slot_id) = true <;> simp [h]
  have hrc : ∀ x, (db.appointments.map (fun x =>
      if x.id == appointment_id then
        { x with
            slot_id := new_slot_id
            provider := ns.provider
            note := strip_pipe_space (appt.note ++ " | " ++ note) }
      else x)).countP (fun a => a.status == "BOOKED" && a.slot_id == x) +
      (if appt.slot_id = x then 1 else 0) =
      refCount db x + (if new_slot_id = x then 1 else 0) := by
    intro x
    rw [hmapk, refCount, hsplit]
    rw [List.countP_append, List.countP_cons, List.countP_append,
      List.countP_cons]
    by_cases h1 : appt.slot_id = x <;> by_cases h2 : new_slot_id = x <;>
      simp [h1, h2, hapred.2] <;> omega
  have hrc' : ∀ x, refCount db x =
      db.appointments.countP (fun a => a.status == "BOOKED" && a.slot_id == x) :=
    fun _ => rfl
  constructor
  · simp only []
    rw [map_id_of_update _ hidg, map_id_of_update _ hidf]
    exact hW.slot_ids_nodup
  · simp only []
    rw [map_aid_of_update _ hidk]
    exact hW.appt_ids_nodup
  · intro y hy
    simp only [] at hy ⊢
    obtain ⟨x, hx, hxe⟩ := List.mem_map.mp hy
    rw [← hxe, hidk]
    exact hW.appt_ids_lt x hx
  · intro s' hs' hbooked
    simp only [List.map_map] at hs'
    obtain ⟨t, ht, hte⟩ := List.mem_map.mp hs'
    show refCount _ s'.id = 1
    have hrct := hrc s'.id
    by_cases ht1 : t.id = appt.slot_id
    · exfalso
      have htne : t.id ≠ new_slot_id := by rw [ht1]; exact hosne
      have : s'.status = SlotStatus.AVAILABLE := by
        rw [← hte]
        simp [Function.comp, ht1, htne, hosne, Ne.symm hosne]
      rw [hbooked] at this
      cases this
    · by_cases ht2 : t.id = new_slot_id
      · have htns : t = ns :=
          List.inj_on_of_nodup_map hW.slot_ids_nodup ht hnsmem (by rw [ht2, hnsid])
        have hsid' : s'.id = new_slot_id := by
          rw [← hte, Function.comp_apply, hidg, hidf, ht2]
        have h0 : refCount db new_slot_id = 0 := by
          rw [← hnsid]
          exact (hW.avail_free ns hnsmem hav).1
        rw [refCount]
        simp only []
        rw [hsid']
        have := hrc new_slot_id
        rw [h0] at this
        rw [if_neg hosne, if_pos rfl] at this
        omega
      · have hte2 : s' = t := by
          rw [← hte]
          simp [Function.comp, ht1, ht2]
        rw [hte2] at hbooked ⊢
        have h1 := hW.booked_unique t ht hbooked
        have := hrc t.id
        rw [if_neg (fun h => ht1 h.symm), if_neg (fun h => ht2 h.symm)] at this
        rw [refCount]
        simp only []
        omega
  · intro s' hs' havail
    simp only [List.map_map] at hs'
    obtain ⟨t, ht, hte⟩ := List.mem_map.mp hs'
    by_cases ht1 : t.id = appt.slot_id
    · have htne : t.id ≠ new_slot_id := by rw [ht1]; exact hosne
      have hs'eq : s' = { t with
          status := SlotStatus.AVAILABLE, appointment_id := none } := by
        rw [← hte]
        simp [Function.comp, ht1, htne, hosne, Ne.symm hosne]
      have hsid' : s'.id = appt.slot_id := by rw [hs'eq]; exact ht1
      have htb : t.status = SlotStatus.BOOKED := by
        cases hts : t.status with
        | BOOKED => rfl
        | AVAILABLE =>
          exfalso
          have h0 := (hW.avail_free t ht hts).1
          rw [ht1] at h0
          omega
      have h1 : refCount db appt.slot_id = 1 := by
        rw [← ht1]
        exact hW.booked_unique t ht htb
      constructor
      · rw [refCount]
        simp only []
        rw [hsid']
        have := hrc appt.slot_id
        rw [if_pos rfl, if_neg (fun h => hosne h.symm), h1] at this
        omega
      · rw [hs'eq]
    · by_cases ht2 : t.id = new_slot_id
      · exfalso
        have : s'.status = SlotStatus.BOOKED := by
          rw [← hte]
          simp [Function.comp, ht1, ht2, hosne, Ne.symm hosne]
        rw [havail] at this
        cases this
      · have hte2 : s' = t := by
          rw [← hte]
          simp [Function.comp, ht1, ht2]
        rw [hte2] at havail ⊢
        have h1 := hW.avail_free t ht havail
        refine ⟨?_, h1.2⟩
        have := hrc t.id
        rw [if_neg (fun h => ht1 h.symm), if_neg (fun h => ht2 h.symm)] at this
        rw [refCount]
        simp only []
        omega

/-- Logging an activity row touches no slot or appointment state. -/
theorem log_preserves_wf {db : DB} (hW : WellFormed db) (aid : Nat)
    (ty : String) (det : List (String × String)) :
    WellFormed (log_appointment_activity db aid ty det) :=
  ⟨hW.slot_ids_nodup, hW.appt_ids_nodup, hW.appt_ids_lt, hW.booked_unique,
   hW.avail_free⟩

/-- **C1** — Slot-exclusivity invariant.  Starting from any schema-conforming
state in which every BOOKED slot is referenced by exactly one appointment
and every AVAILABLE slot has no appointment reference (`WellFormed`), every
completed `Scheduler.book` call — direct booking, fallback booking,
preemption (its `move_appointment_to_slot` followed by
`create_appointment`), and every escalated outcome — returns a state
satisfying the same invariant. -/
theorem book_preserves_invariant (cfg : TriageConfig) (db : DB)
    (now pid tev : Nat) (urgency : Urgency) (department note : String)
    (allow_preemption : Bool) (hW : WellFormed db) :
    ∀ db' r, book cfg db now pid tev urgency department note allow_preemption =
      Except.ok (db', r) → WellFormed db' := by
  intro db' r hok
  simp only [book] at hok
  cases hfa : find_available_slot db department now
      (now + cfg.urgency_windows_minutes urgency) with
  | some slot =>
    simp only [hfa] at hok
    cases hc : create_appointment db pid tev urgency department slot.provider
        slot.id note none with
    | error e => simp only [hc] at hok; exact Except.noConfusion hok
    | ok p =>
      obtain ⟨db1, aid⟩ := p
      simp only [hc] at hok
      simp only [Except.ok.injEq, Prod.mk.injEq] at hok
      exact hok.1 ▸ create_preserves_wf hW pid tev urgency department
        slot.provider slot.id note none hc
  | none =>
    simp only [hfa] at hok
    by_cases hsr : urgency = Urgency.SOON ∨ urgency = Urgency.ROUTINE
    · rw [if_pos hsr] at hok
      cases hfn : find_next_available_slot db department
          (now + cfg.urgency_windows_minutes urgency)
          (some (now + cfg.fallback_window_minutes)) with
      | some f =>
        simp only [hfn] at hok
        cases hc : create_appointment db pid tev urgency department f.provider
            f.id (note ++ " | booked outside ideal urgency window") none with
        | error e => simp only [hc] at hok; exact Except.noConfusion hok
        | ok p =>
          obtain ⟨db1, aid⟩ := p
          simp only [hc] at hok
          simp only [Except.ok.injEq, Prod.mk.injEq] at hok
          exact hok.1 ▸ create_preserves_wf hW pid tev urgency department
            f.provider f.id (note ++ " | booked outside ideal urgency window")
            none hc
      | none =>
        simp only [hfn] at hok
        simp only [Except.ok.injEq, Prod.mk.injEq] at hok
        exact hok.1 ▸ hW
    · rw [if_neg hsr] at hok
      by_cases hp : ¬(allow_preemption = true ∧ cfg.preemption_enabled = true)
      · rw [if_pos hp] at hok
        simp only [Except.ok.injEq, Prod.mk.injEq] at hok
        exact hok.1 ▸ hW
      · rw [if_neg hp] at hok
        cases hfp : find_preemptable_appointment db department urgency
            (now + cfg.urgency_windows_minutes urgency) with
        | none =>
          simp only [hfp] at hok
          simp only [Except.ok.injEq, Prod.mk.injEq] at hok
          exact hok.1 ▸ hW
        | some cand =>
          simp only [hfp] at hok
          cases hfn : find_next_available_slot db department
              (now + cfg.urgency_windows_minutes urgency)
              (some (now + cfg.fallback_window_minutes)) with
          | none =>
            simp only [hfn] at hok
            simp only [Except.ok.injEq, Prod.mk.injEq] at hok
            exact hok.1 ▸ hW
          | some repl =>
            simp only [hfn] at hok
            cases hm : move_appointment_to_slot db cand.1.id repl.id
                ("Preempted by higher-priority case; auto-rescheduled to " ++
                  toString repl.start_at) with
            | error e => simp only [hm] at hok; exact Except.noConfusion hok
            | ok db1 =>
              have hW1 := move_preserves_wf hW cand.1.id repl.id
                ("Preempted by higher-priority case; auto-rescheduled to " ++
                  toString repl.start_at) hm
              simp only [hm] at hok
              cases hg : get_slot db1 cand.1.slot_id with
              | none => simp only [hg] at hok; exact Except.noConfusion hok
              | some ps =>
                simp only [hg] at hok
                cases hc2 : create_appointment db1 pid tev urgency department
                    ps.provider ps.id (note ++ " | preemption applied")
                    (some cand.1.id) with
                | error e => simp only [hc2] at hok; exact Except.noConfusion hok
                | ok p =>
                  obtain ⟨db2, aid⟩ := p
                  have hW2 := create_preserves_wf hW1 pid tev urgency department
                    ps.provider ps.id (note ++ " | preemption applied")
                    (some cand.1.id) hc2
                  simp only [hc2] at hok
                  simp only [Except.ok.injEq, Prod.mk.injEq] at hok
                  exact hok.1 ▸ log_preserves_wf (log_preserves_wf hW2 cand.1.id
                    "PREEMPTED_OUT"
                    [("by_appointment_id", toString aid),
                     ("new_slot_id", toString repl.id)]) aid "PREEMPTED_IN"
                    [("preempted_appointment_id", toString cand.1.id),
                     ("slot_id", toString ps.id)]

/-- Witness for `book_preserves_invariant`: the Scenario B preemption
produces a state that still satisfies the slot-exclusivity invariant. -/
theorem book_preserves_invariant_witness :
    ∃ db' r, book defaultConfig preemptDB 0 10 20 Urgency.URGENT "Cardiology"
        "urgent case" true = Except.ok (db', r) ∧ WellFormed db' := by
  refine ⟨_, _, rfl, ?_⟩
  exact book_preserves_invariant defaultConfig preemptDB 0 10 20 Urgency.URGENT
    "Cardiology" "urgent case" true
    ⟨by decide, by decide, by decide, by decide, by decide⟩ _ _ rfl

end Triage
